import Mathlib

/-!
Verification of the eris IRC daemon (Go) against its natural-language
specification.  The Go sources are shallowly embedded: Go maps are
modelled as association lists (list order standing for Go's map
iteration order), Go strings as Lean `String`/`List Char`, clients as
numeric identifiers, and reply numerics as constructors of an `Event`
type (the reply-formatting module is not part of the sources; only the
identity of each numeric matters for the claims).  Each embedded
definition is translated from the named Go function.
-/

namespace Eris

/-- User mode letters, from the `UserMode` constants in the mode module
(`Away 'a'`, `Invisible 'i'`, `Operator 'o'`, `WallOps 'w'`,
`Registered 'r'`, `SecureConn 'z'`, `SecureOnly 'Z'`, `HostMask 'x'`). -/
inductive UserMode where
  | away
  | invisible
  | operator
  | wallOps
  | registered
  | secureConn
  | secureOnly
  | hostMask
deriving DecidableEq, Repr

/-- Channel mode letters, from the `ChannelMode` constants
(`BanMask 'b'`, `ChannelCreator 'O'`, `ChannelOperator 'o'`,
`ExceptMask 'e'`, `InviteMask 'I'`, `InviteOnly 'i'`, `Key 'k'`,
`Moderated 'm'`, `NoOutside 'n'`, `OpOnlyTopic 't'`, `Private 'p'`,
`Secret 's'`, `UserLimit 'l'`, `Voice 'v'`, `SecureChan 'Z'`). -/
inductive ChannelMode where
  | banMask
  | channelCreator
  | channelOperator
  | exceptMask
  | inviteMask
  | inviteOnly
  | key
  | moderated
  | noOutside
  | opOnlyTopic
  | privateChan
  | secret
  | userLimit
  | voice
  | secureChan
deriving DecidableEq, Repr

/-- The single-letter string of a channel mode, from `ChannelMode.String`. -/
def ChannelMode.letter : ChannelMode → String
  | .banMask => "b"
  | .channelCreator => "O"
  | .channelOperator => "o"
  | .exceptMask => "e"
  | .inviteMask => "I"
  | .inviteOnly => "i"
  | .key => "k"
  | .moderated => "m"
  | .noOutside => "n"
  | .opOnlyTopic => "t"
  | .privateChan => "p"
  | .secret => "s"
  | .userLimit => "l"
  | .voice => "v"
  | .secureChan => "Z"

/-- `DefaultChannelModes` from the mode module: `NoOutside, OpOnlyTopic`. -/
def DefaultChannelModes : List ChannelMode := [.noOutside, .opOnlyTopic]

/-!
## Wildcard masks (`UserMaskSet`)

`UserMaskSet.setRegexp` splits every mask at `*` and `?`, meta-quotes the
literal pieces, rejoins them with `.*` and `.`, and compiles
`"^" ++ join exprs "|" ++ "$"`.  A meta-quoted piece matches exactly
itself, so a single mask expression denotes precisely the glob semantics
of the raw mask; we therefore embed a mask expression as the raw mask
with glob matching (`*` any sequence, `?` exactly one character, all
else literal), rather than via a regex string round-trip.
-/

/-- The non-empty suffixes of a string followed by the empty suffix:
the candidate remainders a `.*` can leave. -/
def tails : List Char → List (List Char)
  | [] => [[]]
  | c :: s => (c :: s) :: tails s

/-- Anchored glob matching of one mask against one string: `*` matches any
character sequence (so the rest of the mask must match some tail), `?`
exactly one character, everything else itself.  This is the semantics of
one compiled mask expression of `setRegexp`. -/
def globMatch : List Char → List Char → Bool
  | [], s => s.isEmpty
  | '*' :: ps, s => (tails s).any fun t => globMatch ps t
  | '?' :: ps, s =>
    match s with
    | [] => false
    | _ :: s' => globMatch ps s'
  | p :: ps, s =>
    match s with
    | [] => false
    | c :: s' => (p = c) && globMatch ps s'

/-- Some prefix of `s` matches the glob `g` (an expression anchored only
at the start, as in Go regexp search for `^e`). -/
def matchesAtStart (g : List Char) (s : List Char) : Bool :=
  (List.range (s.length + 1)).any fun i => globMatch g (s.take i)

/-- Some suffix of `s` matches the glob `g` (an expression anchored only
at the end, as in Go regexp search for `e$`). -/
def matchesAtEnd (g : List Char) (s : List Char) : Bool :=
  (List.range (s.length + 1)).any fun i => globMatch g (s.drop i)

/-- Some substring of `s` matches the glob `g` (an unanchored expression,
as in Go regexp search for a bare `e`). -/
def matchesSomewhere (g : List Char) (s : List Char) : Bool :=
  (List.range (s.length + 1)).any fun i => matchesAtStart g (s.drop i)

/-- The `maskExprs` array as `setRegexp` actually fills it: the slice is
allocated with `make([]string, len(set.masks))` (all entries empty) and
the loop writes every mask at `maskExprs[index]` with `index` stuck at 0,
so only the last-iterated mask survives and the remaining entries stay
empty.  List order models Go's map iteration order. -/
def setRegexpExprs (masks : List String) : List String :=
  masks.foldl (fun acc m => acc.set 0 m) (List.replicate masks.length "")

/-- The alternation branches of the compiled expression
`"^" ++ join exprs "|" ++ "$"`: Go regexp gives alternation the lowest
precedence, so `^` attaches to the first branch only and `$` to the last
branch only. -/
def setRegexpBranches (es : List String) : List (String × Bool × Bool) :=
  es.enum.map fun p => (p.2, p.1 == 0, p.1 == es.length - 1)

/-- Matching one alternation branch anywhere in `s`, honouring the
branch's start/end anchors (Go `MatchString` reports whether any branch
matches at any position). -/
def branchMatch : String × Bool × Bool → List Char → Bool
  | (g, true, true), s => globMatch g.data s
  | (g, true, false), s => matchesAtStart g.data s
  | (g, false, true), s => matchesAtEnd g.data s
  | (g, false, false), s => matchesSomewhere g.data s

/-- `UserMaskSet.Match`: an empty set has a nil regexp and matches
nothing; otherwise the compiled alternation is searched in `userhost`. -/
def maskSetMatch (masks : List String) (userhost : String) : Bool :=
  if masks.isEmpty then false
  else (setRegexpBranches (setRegexpExprs masks)).any
    fun b => branchMatch b userhost.data

/-- The matching the specification describes for `UserMaskSet`: some raw
mask of the set equals or wildcard-matches the whole userhost literal. -/
def maskSetMatchSpec (masks : List String) (userhost : String) : Bool :=
  masks.any fun m => globMatch m.data userhost.data

/-!
## Channel state (`Channel` in channel.go)

Clients are numeric identifiers; the per-client data a channel consults
(`flags`, `UserHost(false)`) is a `ClientState`.  `members` is an
association list modelling the Go `MemberSet` map, list order standing
for map iteration order; `flags` and the three mask lists likewise.
-/

/-- A client reference (`*Client` pointers are modelled by identity). -/
abbrev ClientId := Nat

/-- The client attributes channel code reads: the user-mode set
(`client.flags`, a set) and the non-cloaked `nick!user@host` literal
(`client.UserHost(false)`). -/
structure ClientState where
  flags : List UserMode
  userhost : String
deriving DecidableEq, Repr

/-- `client.flags[mode]` on the modelled flag set. -/
def ClientState.hasMode (ci : ClientState) (m : UserMode) : Bool :=
  ci.flags.contains m

/-- The `Channel` struct: mode flags, the three mask lists
(`BanMask`/`ExceptMask`/`InviteMask`), key, members with their
per-member mode sets, topic and user limit. -/
structure ChanState where
  flags : List ChannelMode
  banMasks : List String
  exceptMasks : List String
  inviteMasks : List String
  key : String
  members : List (ClientId × List ChannelMode)
  topic : String
  userLimit : Nat
deriving DecidableEq, Repr

namespace ChanState

/-- `channel.members.Has(client)`. -/
def memberHas (ch : ChanState) (c : ClientId) : Bool :=
  ch.members.any fun p => p.1 == c

/-- `channel.members.Get(client)`: the member's mode set (empty for a
non-member, as a nil map reads false in Go). -/
def memberModes (ch : ChanState) (c : ClientId) : List ChannelMode :=
  (ch.members.lookup c).getD []

/-- `channel.members.HasMode(client, mode)`. -/
def memberHasMode (ch : ChanState) (c : ClientId) (m : ChannelMode) : Bool :=
  (ch.members.lookup c).getD [] |>.contains m

/-- `channel.flags.Has(mode)`. -/
def hasFlag (ch : ChanState) (m : ChannelMode) : Bool :=
  ch.flags.contains m

/-- `channel.flags.Set(mode)` (map insert; appending models insertion
into the map, the set never holds duplicates). -/
def flagSet (ch : ChanState) (m : ChannelMode) : ChanState :=
  if ch.flags.contains m then ch else { ch with flags := ch.flags ++ [m] }

/-- `channel.flags.Unset(mode)` (map delete). -/
def flagUnset (ch : ChanState) (m : ChannelMode) : ChanState :=
  { ch with flags := ch.flags.filter fun x => x ≠ m }

/-- `channel.members.Add(client)`: a fresh empty mode set. -/
def memberAdd (ch : ChanState) (c : ClientId) : ChanState :=
  { ch with members := ch.members ++ [(c, [])] }

/-- `channel.members.Remove(client)` (map delete). -/
def memberRemove (ch : ChanState) (c : ClientId) : ChanState :=
  { ch with members := ch.members.filter fun p => p.1 ≠ c }

/-- `channel.members.Get(client).Set(mode)` on a present member. -/
def memberSetMode (ch : ChanState) (c : ClientId) (m : ChannelMode) : ChanState :=
  { ch with members := ch.members.map fun p =>
      if p.1 = c then (p.1, if p.2.contains m then p.2 else p.2 ++ [m]) else p }

/-- `channel.members.Get(client).Unset(mode)` on a present member. -/
def memberUnsetMode (ch : ChanState) (c : ClientId) (m : ChannelMode) : ChanState :=
  { ch with members := ch.members.map fun p =>
      if p.1 = c then (p.1, p.2.filter fun x => x ≠ m) else p }

/-- `Channel.ClientIsOperator`: user mode `o` or channel mode `@`. -/
def clientIsOperator (ch : ChanState) (c : ClientId) (ci : ClientState) : Bool :=
  ci.hasMode .operator || ch.memberHasMode c .channelOperator

/-- `Channel.IsFull`: `userLimit > 0` and member count at or above it. -/
def isFull (ch : ChanState) : Bool :=
  decide (0 < ch.userLimit) && decide (ch.userLimit ≤ ch.members.length)

/-- `Channel.CheckKey`: an unset key is matched by anything. -/
def checkKey (ch : ChanState) (key : String) : Bool :=
  ch.key == "" || ch.key == key

/-- `Channel.IsEmpty`. -/
def isEmpty (ch : ChanState) : Bool :=
  ch.members.length == 0

end ChanState

/-- Replies a channel operation can enqueue.  Numerics are identified by
name (the formatting module is outside the sources); each constructor
carries the recipient (`dst`). -/
inductive ChanEvent where
  | errChannelIsFull (dst : ClientId)
  | errBadChannelKey (dst : ClientId)
  | errInviteOnlyChan (dst : ClientId)
  | errBannedFromChan (dst : ClientId)
  | errCannotSendToChan (dst : ClientId)
  | errNotOnChannel (dst : ClientId)
  | errChanOPrivIsNeeded (dst : ClientId)
  | errNeedMoreParams (dst : ClientId)
  | errNoSuchNick (dst : ClientId) (nick : String)
  | errUserNotInChannel (dst : ClientId) (target : ClientId)
  | errUnknownMode (dst : ClientId) (m : ChannelMode)
  | joinMsg (dst : ClientId) (joiner : ClientId)
  | topicReply (dst : ClientId) (topic : String)
  | noTopicReply (dst : ClientId)
  | namReply (dst : ClientId)
  | endOfNames (dst : ClientId)
  | deliverPrivMsg (dst : ClientId) (sender : ClientId) (text : String)
  | deliverNotice (dst : ClientId) (sender : ClientId) (text : String)
  | partMsg (dst : ClientId) (parter : ClientId)
  | kickMsg (dst : ClientId) (kicker : ClientId) (target : ClientId)
  | rplChannelModeIs (dst : ClientId) (modeStr : String)
  | rplChannelMode (dst : ClientId)
  | maskListItem (dst : ClientId) (mask : String)
  | endOfMaskList (dst : ClientId)
  | errNoSuchChannel (dst : ClientId) (name : String)
  | errNoPrivileges (dst : ClientId)
  | topicChanged (dst : ClientId) (setter : ClientId)
  | rplInviting (dst : ClientId) (target : ClientId)
  | inviteMsg (dst : ClientId) (inviter : ClientId)
  | rplAway (dst : ClientId) (target : ClientId)
deriving DecidableEq, Repr

namespace Channel

open ChanState

/-- `Channel.Names` (RplNamReply then RplEndOfNames). -/
def names (c : ClientId) : List ChanEvent :=
  [.namReply c, .endOfNames c]

/-- `Channel.GetTopic`: non-members get ERR_NOTONCHANNEL; an empty topic
yields RPL_NOTOPIC, otherwise RPL_TOPIC. -/
def getTopic (ch : ChanState) (c : ClientId) (ci : ClientState) : List ChanEvent :=
  if !(ch.clientIsOperator c ci || ch.memberHas c) then [.errNotOnChannel c]
  else if ch.topic == "" then [.noTopicReply c]
  else [.topicReply c ch.topic]

/-- The success tail of `Channel.Join`: add to the member set, grant
`ChannelCreator` and `ChannelOperator` to a first member, broadcast the
JOIN to every member (the joiner included), then send topic and names to
the joiner.  The `Bool` is true exactly here, recording that the success
path also runs `client.channels.Add(channel)` (applied by the server
layer, which owns the per-client channel set). -/
def joinAccept (ch : ChanState) (c : ClientId) (ci : ClientState) :
    ChanState × List ChanEvent × Bool :=
  let ch1 := ch.memberAdd c
  let ch2 :=
    if ch1.members.length == 1 then
      (ch1.memberSetMode c .channelCreator).memberSetMode c .channelOperator
    else ch1
  (ch2, (ch2.members.map fun p => ChanEvent.joinMsg p.1 c)
      ++ getTopic ch2 c ci ++ names c, true)

/-- `Channel.Join` (channel.go:140), translated check for check. -/
def join (ch : ChanState) (c : ClientId) (ci : ClientState) (key : String) :
    ChanState × List ChanEvent × Bool :=
  if ch.memberHas c then (ch, [], false)
  else
    let isOperator := ch.clientIsOperator c ci
    if !isOperator && ch.isFull then (ch, [.errChannelIsFull c], false)
    else if !isOperator && !ch.checkKey key then (ch, [.errBadChannelKey c], false)
    else
      let isInvited := maskSetMatch ch.inviteMasks ci.userhost
      if !isOperator && ch.hasFlag .inviteOnly && !isInvited then
        (ch, [.errInviteOnlyChan c], false)
      else if maskSetMatch ch.banMasks ci.userhost && !isInvited && !isOperator
          && !maskSetMatch ch.exceptMasks ci.userhost then
        (ch, [.errBannedFromChan c], false)
      else joinAccept ch c ci

/-- The claim's admission cascade, stated in its own words: membership
first, then (unless the client is a server operator or holds `@`) the
full / key / invite-only / ban checks in order, each failure leaving the
member set unchanged; success continues as the code does. -/
def joinSpec (ch : ChanState) (c : ClientId) (ci : ClientState) (key : String) :
    ChanState × List ChanEvent × Bool :=
  if ch.memberHas c then (ch, [], false)
  else if ci.hasMode .operator || ch.memberHasMode c .channelOperator then
    joinAccept ch c ci
  else if 0 < ch.userLimit ∧ ch.userLimit ≤ ch.members.length then
    (ch, [.errChannelIsFull c], false)
  else if ch.key ≠ "" ∧ key ≠ ch.key then (ch, [.errBadChannelKey c], false)
  else if ch.hasFlag .inviteOnly ∧ ¬maskSetMatch ch.inviteMasks ci.userhost then
    (ch, [.errInviteOnlyChan c], false)
  else if maskSetMatch ch.banMasks ci.userhost
      ∧ ¬maskSetMatch ch.exceptMasks ci.userhost
      ∧ ¬maskSetMatch ch.inviteMasks ci.userhost then
    (ch, [.errBannedFromChan c], false)
  else joinAccept ch c ci

/-- `Channel.CanSpeak` (channel.go:236), translated check for check. -/
def canSpeak (ch : ChanState) (c : ClientId) (ci : ClientState) : Bool :=
  if ch.clientIsOperator c ci then true
  else if ch.hasFlag .noOutside && !ch.memberHas c then false
  else if ch.hasFlag .moderated && !(ch.memberHasMode c .voice
      || ch.memberHasMode c .channelOperator) then false
  else if ch.hasFlag .secureChan && !ci.hasMode .secureConn then false
  else true

/-- The claim's speaking policy in its own words: operators always may;
otherwise none of the three mode restrictions may apply. -/
def canSpeakSpec (ch : ChanState) (c : ClientId) (ci : ClientState) : Prop :=
  ch.clientIsOperator c ci = true
    ∨ (¬(ch.hasFlag .noOutside = true ∧ ¬ch.memberHas c = true)
      ∧ ¬(ch.hasFlag .moderated = true
          ∧ ¬(ch.memberHasMode c .voice = true
              ∨ ch.memberHasMode c .channelOperator = true))
      ∧ ¬(ch.hasFlag .secureChan = true ∧ ¬ci.hasMode .secureConn = true))

instance (ch : ChanState) (c : ClientId) (ci : ClientState) :
    Decidable (canSpeakSpec ch c ci) := by
  unfold canSpeakSpec; infer_instance

/-- `Channel.PrivMsg`: a failed speaking check replies
ERR_CANNOTSENDTOCHAN and delivers nothing; otherwise the message is
enqueued to every member except the sender. -/
def privMsg (ch : ChanState) (c : ClientId) (ci : ClientState) (text : String) :
    List ChanEvent :=
  if !canSpeak ch c ci then [.errCannotSendToChan c]
  else ch.members.filterMap fun p =>
    if p.1 = c then none else some (.deliverPrivMsg p.1 c text)

/-- `Channel.Notice`: same policy as `PrivMsg`. -/
def notice (ch : ChanState) (c : ClientId) (ci : ClientState) (text : String) :
    List ChanEvent :=
  if !canSpeak ch c ci then [.errCannotSendToChan c]
  else ch.members.filterMap fun p =>
    if p.1 = c then none else some (.deliverNotice p.1 c text)

/-- `Channel.ModeString` (channel.go:98): letters of argument-bearing
modes first (`k` when the key is set and the querier is a member or a
server operator, then `l` when a user limit is set), then the flag
letters, all behind `+`; the key and the limit follow as positional
arguments in the same order as their letters. -/
def modeString (ch : ChanState) (c : ClientId) (ci : ClientState) : String :=
  let isMember := ci.hasMode .operator || ch.memberHas c
  let showKey := isMember && ch.key != ""
  let showUserLimit := decide (0 < ch.userLimit)
  let str := (if showKey then ChannelMode.key.letter else "")
    ++ (if showUserLimit then ChannelMode.userLimit.letter else "")
  let str := str ++ String.join (ch.flags.map ChannelMode.letter)
  let str := "+" ++ str
  let str := str ++ (if showKey then " " ++ ch.key else "")
  str ++ (if showUserLimit then " " ++ toString ch.userLimit else "")

end Channel

/-- `ModeOp`: `Add '+'`, `List '='`, `Remove '-'`. -/
inductive ModeOp where
  | add
  | listQuery
  | remove
deriving DecidableEq, Repr

/-- `ChannelModeChange`: one requested change with its argument. -/
structure ChannelModeChange where
  mode : ChannelMode
  op : ModeOp
  arg : String
deriving DecidableEq, Repr

namespace Channel

open ChanState

/-- `Channel.applyModeFlag`: operator-gated set/unset of a flag mode;
returns whether the change was applied. -/
def applyModeFlag (ch : ChanState) (c : ClientId) (ci : ClientState)
    (mode : ChannelMode) (op : ModeOp) : ChanState × List ChanEvent × Bool :=
  if !ch.clientIsOperator c ci then (ch, [.errChanOPrivIsNeeded c], false)
  else
    match op with
    | .add => if ch.hasFlag mode then (ch, [], false) else (ch.flagSet mode, [], true)
    | .remove => if !ch.hasFlag mode then (ch, [], false) else (ch.flagUnset mode, [], true)
    | .listQuery => (ch, [], false)

/-- `Channel.applyModeMember`: operator-gated grant/revoke of a
per-member mode, with the nick resolved through the server's client
registry (`lookup`). -/
def applyModeMember (lookup : String → Option ClientId) (ch : ChanState)
    (c : ClientId) (ci : ClientState) (mode : ChannelMode) (op : ModeOp)
    (nick : String) : ChanState × List ChanEvent × Bool :=
  if !ch.clientIsOperator c ci then (ch, [.errChanOPrivIsNeeded c], false)
  else if nick == "" then (ch, [.errNeedMoreParams c], false)
  else
    match lookup nick with
    | none => (ch, [.errNoSuchNick c nick], false)
    | some target =>
      if !ch.memberHas target then (ch, [.errUserNotInChannel c target], false)
      else
        match op with
        | .add =>
          if ch.memberHasMode target mode then (ch, [], false)
          else (ch.memberSetMode target mode, [], true)
        | .remove =>
          if !ch.memberHasMode target mode then (ch, [], false)
          else (ch.memberUnsetMode target mode, [], true)
        | .listQuery => (ch, [], false)

/-- The mask list a mask-valued mode addresses (`channel.lists[mode]`);
only called on `b`, `e`, `I`. -/
def listGet (ch : ChanState) (mode : ChannelMode) : List String :=
  match mode with
  | .banMask => ch.banMasks
  | .exceptMask => ch.exceptMasks
  | .inviteMask => ch.inviteMasks
  | _ => []

/-- Writing back the mask list a mask-valued mode addresses. -/
def listSet (ch : ChanState) (mode : ChannelMode) (l : List String) : ChanState :=
  match mode with
  | .banMask => { ch with banMasks := l }
  | .exceptMask => { ch with exceptMasks := l }
  | .inviteMask => { ch with inviteMasks := l }
  | _ => ch

/-- `Channel.ShowMaskList`: one RplMaskList per stored mask, then the
end-of-list numeric. -/
def showMaskList (ch : ChanState) (c : ClientId) (mode : ChannelMode) :
    List ChanEvent :=
  ((listGet ch mode).map fun m => ChanEvent.maskListItem c m) ++ [.endOfMaskList c]

/-- `Channel.applyModeMask`: a `=` query or empty mask lists the set;
otherwise operator-gated add/remove (`UserMaskSet.Add` and `.Remove`
report whether the set changed). -/
def applyModeMask (ch : ChanState) (c : ClientId) (ci : ClientState)
    (mode : ChannelMode) (op : ModeOp) (mask : String) :
    ChanState × List ChanEvent × Bool :=
  if op == .listQuery || mask == "" then (ch, showMaskList ch c mode, false)
  else if !ch.clientIsOperator c ci then (ch, [.errChanOPrivIsNeeded c], false)
  else
    let l := listGet ch mode
    match op with
    | .add =>
      if l.contains mask then (ch, [], false)
      else (listSet ch mode (l ++ [mask]), [], true)
    | .remove =>
      if !l.contains mask then (ch, [], false)
      else (listSet ch mode (l.filter fun x => x ≠ mask), [], true)
    | .listQuery => (ch, [], false)

/-- `Channel.applyMode` (channel.go:371): dispatch on the mode letter;
`Secret 's'` and `ChannelCreator 'O'` fall to the default arm and yield
ERR_UNKNOWNMODE.  `UserLimit` parses its argument with `ParseUint`
(modelled by `String.toNat?`; the uint64 range is never reached by the
claims). -/
def applyMode (lookup : String → Option ClientId) (ch : ChanState)
    (c : ClientId) (ci : ClientState) (change : ChannelModeChange) :
    ChanState × List ChanEvent × Bool :=
  match change.mode with
  | .banMask => applyModeMask ch c ci change.mode change.op change.arg
  | .exceptMask => applyModeMask ch c ci change.mode change.op change.arg
  | .inviteMask => applyModeMask ch c ci change.mode change.op change.arg
  | .inviteOnly => applyModeFlag ch c ci change.mode change.op
  | .moderated => applyModeFlag ch c ci change.mode change.op
  | .noOutside => applyModeFlag ch c ci change.mode change.op
  | .opOnlyTopic => applyModeFlag ch c ci change.mode change.op
  | .privateChan => applyModeFlag ch c ci change.mode change.op
  | .secureChan => applyModeFlag ch c ci change.mode change.op
  | .key =>
    if !ch.clientIsOperator c ci then (ch, [.errChanOPrivIsNeeded c], false)
    else
      match change.op with
      | .add =>
        if change.arg == "" then (ch, [.errNeedMoreParams c], false)
        else if change.arg == ch.key then (ch, [], false)
        else ({ ch with key := change.arg }, [], true)
      | .remove => ({ ch with key := "" }, [], true)
      | .listQuery => (ch, [], false)
  | .userLimit =>
    match change.arg.toNat? with
    | none => (ch, [.errNeedMoreParams c], false)
    | some limit =>
      if limit == 0 || limit == ch.userLimit then (ch, [], false)
      else ({ ch with userLimit := limit }, [], true)
  | .channelOperator => applyModeMember lookup ch c ci change.mode change.op change.arg
  | .voice => applyModeMember lookup ch c ci change.mode change.op change.arg
  | .channelCreator => (ch, [.errUnknownMode c change.mode], false)
  | .secret => (ch, [.errUnknownMode c change.mode], false)

/-- `Channel.Mode` (channel.go:428): an empty change list replies
RPL_CHANNELMODEIS; otherwise the changes are applied in order and, when
at least one applied, the mode change is broadcast to every member. -/
def mode (lookup : String → Option ClientId) (ch : ChanState) (c : ClientId)
    (ci : ClientState) (changes : List ChannelModeChange) :
    ChanState × List ChanEvent :=
  if changes.isEmpty then (ch, [.rplChannelModeIs c (modeString ch c ci)])
  else
    let r := changes.foldl
      (fun (acc : ChanState × List ChanEvent × Nat) change =>
        let (ch', evs, ok) := applyMode lookup acc.1 c ci change
        (ch', acc.2.1 ++ evs, acc.2.2 + (if ok then 1 else 0)))
      (ch, [], 0)
    if 0 < r.2.2 then
      (r.1, r.2.1 ++ r.1.members.map fun p => ChanEvent.rplChannelMode p.1)
    else (r.1, r.2.1)

/-- `Channel.SetTopic`: member or operator only; `t` additionally
requires channel-operator rights; on success the topic is stored and the
change broadcast to every member. -/
def setTopic (ch : ChanState) (c : ClientId) (ci : ClientState)
    (topic : String) : ChanState × List ChanEvent :=
  if !(ch.clientIsOperator c ci || ch.memberHas c) then
    (ch, [.errNotOnChannel c])
  else if ch.hasFlag .opOnlyTopic && !ch.clientIsOperator c ci then
    (ch, [.errChanOPrivIsNeeded c])
  else
    let ch' := { ch with topic := topic }
    (ch', ch'.members.map fun p => ChanEvent.topicChanged p.1 c)

/-- `Channel.Kick` up to the removal itself: the checks and the KICK
broadcast; the returned flag says whether `Channel.Quit(target)` runs
(the server layer owns registry removal). -/
def kick (ch : ChanState) (c : ClientId) (ci : ClientState)
    (target : ClientId) : List ChanEvent × Bool :=
  if !(ch.clientIsOperator c ci || ch.memberHas c) then
    ([.errNotOnChannel c], false)
  else if !ch.clientIsOperator c ci then ([.errChanOPrivIsNeeded c], false)
  else if !ch.memberHas target then ([.errUserNotInChannel c target], false)
  else (ch.members.map fun p => ChanEvent.kickMsg p.1 c target, true)

/-- `Channel.Invite`: an invite-only channel demands channel-operator
rights; the inviter must otherwise be a member; on an invite-only
channel the invitee's userhost is added to the invite-mask set
(`UserMaskSet.Add`, a no-op on a duplicate); the inviter gets
RPL_INVITING, the invitee the INVITE message, and an away target
additionally yields RPL_AWAY to the inviter. -/
def invite (ch : ChanState) (inviter : ClientId) (inviterInfo : ClientState)
    (invitee : ClientId) (inviteeInfo : ClientState) :
    ChanState × List ChanEvent :=
  if ch.hasFlag .inviteOnly && !ch.clientIsOperator inviter inviterInfo then
    (ch, [.errChanOPrivIsNeeded inviter])
  else if !ch.memberHas inviter && !ch.clientIsOperator inviter inviterInfo then
    (ch, [.errNotOnChannel inviter])
  else
    let ch' :=
      if ch.hasFlag .inviteOnly then
        if ch.inviteMasks.contains inviteeInfo.userhost then ch
        else { ch with inviteMasks := ch.inviteMasks ++ [inviteeInfo.userhost] }
      else ch
    (ch', [.rplInviting inviter invitee, .inviteMsg invitee inviter]
      ++ (if inviteeInfo.hasMode .away then [.rplAway inviter invitee] else []))

end Channel

/-!
## Server registry and the membership-changing handlers

The registry keys channels and nicks by their case-folded `Name`; names
here are taken as already folded strings.  Go holds `*Channel` pointers
where this model is keyed by name; the two can differ only through the
stale back-references that `Channel.Quit` deliberately leaves in
`client.channels` (the removal there is commented out in the source),
and neither reading ever puts an empty channel back into the registry.
-/

/-- Modelled from the spec: `Name.IsChannel` lives in the names module,
which is absent from the sources; per the spec a channel name starts
with `#` or `&`. -/
def Name.isChannel (n : String) : Bool :=
  n.startsWith "#" || n.startsWith "&"

/-- The server state the membership-changing handlers read and write:
the channel registry, the nick registry, per-client attributes and each
client's channel set (`client.channels`, kept by name). -/
structure ServerState where
  channels : List (String × ChanState)
  nicks : List (String × ClientId)
  clients : List (ClientId × ClientState)
  clientChans : List (ClientId × List String)
deriving DecidableEq, Repr

namespace ServerState

/-- `server.channels.Get`. -/
def getChan (s : ServerState) (name : String) : Option ChanState :=
  s.channels.lookup name

/-- Rebinding an existing channel name (mutation of the shared
`*Channel` in Go). -/
def chanUpdate (s : ServerState) (name : String) (ch : ChanState) : ServerState :=
  { s with channels := s.channels.map fun p => if p.1 = name then (name, ch) else p }

/-- `server.channels.Remove`. -/
def chanRemove (s : ServerState) (name : String) : ServerState :=
  { s with channels := s.channels.filter fun p => p.1 ≠ name }

/-- The acting client's attributes (`msg.Client()`). -/
def clientInfo (s : ServerState) (c : ClientId) : ClientState :=
  (s.clients.lookup c).getD ⟨[], ""⟩

/-- `client.channels` for a client. -/
def clientChansOf (s : ServerState) (c : ClientId) : List String :=
  (s.clientChans.lookup c).getD []

/-- `client.channels.Add(channel)` (set insert). -/
def clientChansAdd (s : ServerState) (c : ClientId) (name : String) : ServerState :=
  if (s.clientChans.lookup c).isSome then
    { s with clientChans := s.clientChans.map fun p =>
        if p.1 = c then (p.1, if p.2.contains name then p.2 else p.2 ++ [name]) else p }
  else { s with clientChans := s.clientChans ++ [(c, [name])] }

/-- `Channel.Quit` (channel.go:466): remove the member; a channel left
empty removes itself from the registry.  The removal from
`client.channels` is commented out in the source and accordingly absent
here. -/
def channelQuit (s : ServerState) (name : String) (c : ClientId) : ServerState :=
  match s.getChan name with
  | none => s
  | some ch =>
    let ch' := ch.memberRemove c
    if ch'.isEmpty then s.chanRemove name else s.chanUpdate name ch'

/-- `NewChannel` (channel.go:20) with `addDefaultModes`: a fresh channel
carrying `n` and `t`, registered immediately. -/
def freshChan : ChanState :=
  { flags := DefaultChannelModes, banMasks := [], exceptMasks := [],
    inviteMasks := [], key := "", members := [], topic := "", userLimit := 0 }

/-- Registering a fresh channel under a name (`s.channels.Add` inside
`NewChannel`). -/
def newChannel (s : ServerState) (name : String) : ServerState :=
  { s with channels := s.channels ++ [(name, freshChan)] }

/-- `Channel.Join` seen from the server: the channel's transition plus
the `client.channels.Add` the success path performs. -/
def joinInto (s : ServerState) (c : ClientId) (ci : ClientState)
    (name : String) (ch : ChanState) (key : String) :
    ServerState × List ChanEvent :=
  let r := Channel.join ch c ci key
  let s1 := s.chanUpdate name r.1
  (if r.2.2 then s1.clientChansAdd c name else s1, r.2.1)

/-- One name of a JOIN command (server.go `JoinCommand.HandleServer`):
non-channel names are refused, an unknown channel is created first. -/
def joinOne (s : ServerState) (c : ClientId) (p : String × String) :
    ServerState × List ChanEvent :=
  let ci := s.clientInfo c
  if !Name.isChannel p.1 then (s, [.errNoSuchChannel c p.1])
  else
    match s.getChan p.1 with
    | some ch => joinInto s c ci p.1 ch p.2
    | none => joinInto (s.newChannel p.1) c ci p.1 freshChan p.2

/-- One name of a PART command (`Channel.Part`): non-members get
ERR_NOTONCHANNEL; otherwise the PART is broadcast and `Channel.Quit`
runs. -/
def partOne (s : ServerState) (c : ClientId) (name : String) :
    ServerState × List ChanEvent :=
  match s.getChan name with
  | none => (s, [.errNoSuchChannel c name])
  | some ch =>
    if !ch.memberHas c then (s, [.errNotOnChannel c])
    else (s.channelQuit name c, ch.members.map fun p => ChanEvent.partMsg p.1 c)

/-- `Client.destroy`, restricted to the shared model: every channel in
`client.channels` sees `Channel.Quit`, then the client leaves the
registries. -/
def destroyClient (s : ServerState) (c : ClientId) : ServerState :=
  let s1 := (s.clientChansOf c).foldl (fun acc n => acc.channelQuit n c) s
  { s1 with
    nicks := s1.nicks.filter fun p => p.2 ≠ c,
    clients := s1.clients.filter fun p => p.1 ≠ c,
    clientChans := s1.clientChans.filter fun p => p.1 ≠ c }

end ServerState

/-- The command handlers that can touch channel membership or the
channel registry (all the remaining handlers leave both alone, mutating
only per-client data or sending replies). -/
inductive Cmd where
  | joinCmd (c : ClientId) (zero : Bool) (pairs : List (String × String))
  | partCmd (c : ClientId) (names : List String)
  | kickCmd (c : ClientId) (chname : String) (nick : String)
  | quitCmd (c : ClientId)
  | killCmd (c : ClientId) (nick : String)
  | modeCmd (c : ClientId) (chname : String) (changes : List ChannelModeChange)
  | privMsgCmd (c : ClientId) (target : String) (text : String)
  | noticeCmd (c : ClientId) (target : String) (text : String)
  | topicCmd (c : ClientId) (chname : String) (setIt : Bool) (topic : String)
  | inviteCmd (c : ClientId) (nick : String) (chname : String)
deriving DecidableEq, Repr

namespace ServerState

/-- The dispatch of one command handler over the shared state,
translated from the `HandleServer` methods.  Handlers that also run on
per-client state (WHO, NAMES, LUSERS, …) neither read nor write the
fields modelled here beyond lookups and are omitted as identity steps. -/
def step (s : ServerState) : Cmd → ServerState × List ChanEvent
  | .joinCmd c zero pairs =>
    if zero then
      (s.clientChansOf c).foldl
        (fun acc n => let r := partOne acc.1 c n; (r.1, acc.2 ++ r.2)) (s, [])
    else
      pairs.foldl (fun acc p => let r := joinOne acc.1 c p; (r.1, acc.2 ++ r.2)) (s, [])
  | .partCmd c names =>
    names.foldl (fun acc n => let r := partOne acc.1 c n; (r.1, acc.2 ++ r.2)) (s, [])
  | .kickCmd c chname nick =>
    (match s.getChan chname with
     | none => (s, [.errNoSuchChannel c chname])
     | some ch =>
       match s.nicks.lookup nick with
       | none => (s, [.errNoSuchNick c nick])
       | some target =>
         let r := Channel.kick ch c (s.clientInfo c) target
         if r.2 then (s.channelQuit chname target, r.1) else (s, r.1))
  | .quitCmd c => (s.destroyClient c, [])
  | .killCmd c nick =>
    if !(s.clientInfo c).hasMode .operator then (s, [.errNoPrivileges c])
    else
      (match s.nicks.lookup nick with
       | none => (s, [.errNoSuchNick c nick])
       | some target => (s.destroyClient target, []))
  | .modeCmd c chname changes =>
    (match s.getChan chname with
     | none => (s, [.errNoSuchChannel c chname])
     | some ch =>
       let r := Channel.mode (fun n => s.nicks.lookup n) ch c (s.clientInfo c) changes
       (s.chanUpdate chname r.1, r.2))
  | .privMsgCmd c target text =>
    if Name.isChannel target then
      (match s.getChan target with
       | none => (s, [.errNoSuchChannel c target])
       | some ch => (s, Channel.privMsg ch c (s.clientInfo c) text))
    else (s, [])
  | .noticeCmd c target text =>
    if Name.isChannel target then
      (match s.getChan target with
       | none => (s, [.errNoSuchChannel c target])
       | some ch => (s, Channel.notice ch c (s.clientInfo c) text))
    else (s, [])
  | .topicCmd c chname setIt topic =>
    (match s.getChan chname with
     | none => (s, [.errNoSuchChannel c chname])
     | some ch =>
       if setIt then
         let r := Channel.setTopic ch c (s.clientInfo c) topic
         (s.chanUpdate chname r.1, r.2)
       else (s, Channel.getTopic ch c (s.clientInfo c)))
  | .inviteCmd c nick chname =>
    (match s.nicks.lookup nick with
     | none => (s, [.errNoSuchNick c nick])
     | some target =>
       match s.getChan chname with
       | none => (s, [.rplInviting c target, .inviteMsg target c])
       | some ch =>
         let r := Channel.invite ch c (s.clientInfo c) target (s.clientInfo target)
         (s.chanUpdate chname r.1, r.2))

end ServerState

/-!
## WhoWas ring buffer (whowas module)
-/

/-- One `WhoWas` snapshot. -/
structure WhoWas where
  nickname : String
  username : String
  hostname : String
  realname : String
deriving DecidableEq, Repr

/-- `WhoWasList`: a slice of (initially nil) snapshot pointers plus the
`start`/`end` ring indices (`end` is spelled `endIdx` here). -/
structure WhoWasList where
  buffer : List (Option WhoWas)
  start : Nat
  endIdx : Nat
deriving DecidableEq, Repr

/-- `NewWhoWasList(size)`. -/
def NewWhoWasList (size : Nat) : WhoWasList :=
  ⟨List.replicate size none, 0, 0⟩

namespace WhoWasList

/-- `WhoWasList.prev`: step an index backwards with wraparound. -/
def prev (n i : Nat) : Nat :=
  if i = 0 then n - 1 else i - 1

/-- `WhoWasList.Append`: write at `end`, advance it, and when it catches
`start` push `start` past it (overwriting the oldest entry). -/
def append (l : WhoWasList) (w : WhoWas) : WhoWasList :=
  let n := l.buffer.length
  let buf := l.buffer.set l.endIdx (some w)
  let e := (l.endIdx + 1) % n
  if e = l.start then ⟨buf, (e + 1) % n, e⟩ else ⟨buf, l.start, e⟩

/-- The loop of `WhoWasList.Each`: walk backwards from `cur` until the
stop index, yielding buffer entries.  The Go loop has no fuel; one pass
of the ring (`buffer.length` steps) always reaches the stop index, which
the fuel argument makes explicit. -/
def eachLoop (buf : List (Option WhoWas)) (stop : Nat) :
    Nat → Nat → List (Option WhoWas)
  | _, 0 => []
  | cur, fuel + 1 =>
    if cur = stop then []
    else buf.getD cur none :: eachLoop buf stop (prev buf.length cur) fuel

/-- `WhoWasList.Each`: empty when `start = end`; otherwise iterate the
buffer in reverse from the entry before `end` down to `start`. -/
def each (l : WhoWasList) : List (Option WhoWas) :=
  if l.start = l.endIdx then []
  else eachLoop l.buffer (prev l.buffer.length l.start)
    (prev l.buffer.length l.endIdx) l.buffer.length

/-- The loop of `WhoWasList.Find`: keep snapshots whose nickname equals
the query, stopping as soon as the result count reaches `limit`. -/
def findLoop (nickname : String) (limit : Int) :
    List (Option WhoWas) → List WhoWas → List WhoWas
  | [], acc => acc
  | none :: rest, acc => findLoop nickname limit rest acc
  | some w :: rest, acc =>
    if w.nickname ≠ nickname then findLoop nickname limit rest acc
    else
      let acc' := acc ++ [w]
      if limit ≤ (acc'.length : Int) then acc'
      else findLoop nickname limit rest acc'

/-- `WhoWasList.Find(nickname, limit)` over the `Each` iteration.  (A
nil entry can never be yielded from the live region; the `none` arm of
the loop mirrors Go's impossibility of a nil dereference only in that
it keeps the function total.) -/
def find (l : WhoWasList) (nickname : String) (limit : Int) : List WhoWas :=
  findLoop nickname limit l.each []

end WhoWasList

/-!
## Client lifecycle around the WhoWas list

`Client.Quit` (client.go:366) appends a snapshot and then destroys the
client; `Client.ChangeNickname` (client.go:347) appends a snapshot while
the client stays connected.
-/

/-- The identity quadruple `WhoWasList.Append` snapshots. -/
structure ClientIdent where
  nick : String
  username : String
  hostname : String
  realname : String
deriving DecidableEq, Repr

/-- The snapshot `Append` takes from a client. -/
def snapshotOf (ci : ClientIdent) : WhoWas :=
  ⟨ci.nick, ci.username, ci.hostname, ci.realname⟩

/-- The server state the two snapshot-recording operations touch:
identities and the nick registry of the connected clients, and the
who-was list. -/
structure LifeState where
  idents : List (ClientId × ClientIdent)
  nicks : List (String × ClientId)
  whoWas : WhoWasList
deriving DecidableEq, Repr

namespace LifeState

/-- `Client.ChangeNickname`: leave the nick registry, record a who-was
snapshot, take the new nick, re-enter the registry (the NICK broadcast
is outside this component).  The client is not destroyed. -/
def changeNickname (s : LifeState) (c : ClientId) (newNick : String) : LifeState :=
  match s.idents.lookup c with
  | none => s
  | some ident =>
    { idents := s.idents.map fun p =>
        if p.1 = c then (p.1, { ident with nick := newNick }) else p,
      nicks := (s.nicks.filter fun p => p.2 ≠ c) ++ [(newNick, c)],
      whoWas := s.whoWas.append (snapshotOf ident) }

/-- `Client.Quit` followed by `Client.destroy`, restricted to this
component: record the snapshot, then leave both registries. -/
def clientQuit (s : LifeState) (c : ClientId) : LifeState :=
  match s.idents.lookup c with
  | none => s
  | some ident =>
    { idents := s.idents.filter fun p => p.1 ≠ c,
      nicks := s.nicks.filter fun p => p.2 ≠ c,
      whoWas := s.whoWas.append (snapshotOf ident) }

end LifeState

/-!
## Base64 (Go `encoding/base64` StdEncoding)

`DecodeString` of the standard padded alphabet: input length must be a
multiple of four, `=` may appear only as final padding, and surplus bits
of a final partial quantum are discarded (plain `StdEncoding` does not
reject them).  Line breaks cannot occur inside a parsed IRC argument, so
the newline-skipping of the Go decoder has no observable counterpart.
-/

/-- The value of one standard-alphabet base64 digit. -/
def b64Val (c : Char) : Option Nat :=
  if 'A' ≤ c ∧ c ≤ 'Z' then some (c.toNat - 'A'.toNat)
  else if 'a' ≤ c ∧ c ≤ 'z' then some (c.toNat - 'a'.toNat + 26)
  else if '0' ≤ c ∧ c ≤ '9' then some (c.toNat - '0'.toNat + 52)
  else if c = '+' then some 62
  else if c = '/' then some 63
  else none

/-- Decode whole four-character quanta; `none` models the decoder's
`CorruptInputError`. -/
def b64DecodeGroups : List Char → Option (List Nat)
  | [] => some []
  | c1 :: c2 :: c3 :: c4 :: rest =>
    match b64Val c1, b64Val c2 with
    | some v1, some v2 =>
      if c3 = '=' ∧ c4 = '=' ∧ rest = [] then some [v1 * 4 + v2 / 16]
      else
        match b64Val c3 with
        | some v3 =>
          if c4 = '=' ∧ rest = [] then
            some [v1 * 4 + v2 / 16, (v2 % 16) * 16 + v3 / 4]
          else
            match b64Val c4 with
            | some v4 =>
              match b64DecodeGroups rest with
              | some bs => some ([v1 * 4 + v2 / 16, (v2 % 16) * 16 + v3 / 4,
                  (v3 % 4) * 64 + v4] ++ bs)
              | none => none
            | none => none
        | none => none
    | _, _ => none
  | _ => none

/-- `base64.StdEncoding.DecodeString`. -/
def base64Decode (s : String) : Option (List Nat) :=
  b64DecodeGroups s.data

/-- `bytes.Split(data, [0])`: the NUL-separated fields, empty fields
preserved. -/
def splitNul : List Nat → List (List Nat)
  | [] => [[]]
  | 0 :: rest => [] :: splitNul rest
  | b :: rest =>
    match splitNul rest with
    | [] => [[b]]
    | g :: gs => (b :: g) :: gs

/-!
## SASL PLAIN (`AuthenticateCommand.HandleRegServer`, sasl.go:991)
-/

/-- The `SaslState` sub-state: `started`, the base64 chunk buffer, the
selected mechanism and the logged-in identity (`authcid`, kept as the
decoded bytes since identities travel as raw bytes here). -/
structure SaslState where
  started : Bool
  buffer : String
  mech : String
  authcid : List Nat
deriving DecidableEq, Repr

/-- `NewSaslState` / the state `SaslState.Reset` restores. -/
def SaslState.reset : SaslState :=
  ⟨false, "", "", []⟩

/-- `SaslState.Login`: clear the negotiation state but remember the
identity. -/
def SaslState.login (authcid : List Nat) : SaslState :=
  ⟨false, "", "", authcid⟩

/-- The client fields the AUTHENTICATE handler touches. -/
structure SaslClient where
  authorized : Bool
  flags : List UserMode
  sasl : SaslState
deriving DecidableEq, Repr

/-- Replies of the registration-phase handlers. -/
inductive SaslEvent where
  | errPasswdMismatch
  | quit (reason : String)
  | errSaslAborted
  | rplAuthenticate (arg : String)
  | rplSaslMechs (mechs : String)
  | errSaslFail (reason : String)
  | errSaslTooLong
  | rplLoggedIn (authcid : List Nat)
  | rplSaslSuccess
  | rplModeChanges
deriving DecidableEq, Repr

/-- Set insertion on a user-mode flag set (`client.flags[m] = true`). -/
def flagAdd (l : List UserMode) (m : UserMode) : List UserMode :=
  if l.contains m then l else l ++ [m]

/-- `AuthenticateCommand.HandleRegServer`, translated branch for branch.
`verify` is the `PasswordStore.Verify` collaborator (bcrypt comparison
behind an interface). -/
def handleAuthenticate (verify : List Nat → List Nat → Bool)
    (st : SaslClient) (arg : String) : SaslClient × List SaslEvent :=
  if !st.authorized then (st, [.errPasswdMismatch, .quit "bad password"])
  else if arg == "*" then (st, [.errSaslAborted])
  else if !st.sasl.started then
    if arg == "PLAIN" then
      ({ st with sasl := { st.sasl with started := true } }, [.rplAuthenticate "+"])
    else
      (st, [.rplSaslMechs "PLAIN", .errSaslFail "Unknown authentication mechanism"])
  else if 400 < arg.length then (st, [.errSaslTooLong])
  else if arg.length = 400 then
    ({ st with sasl := { st.sasl with buffer := st.sasl.buffer ++ arg } }, [])
  else
    let st := if arg != "+" then
        { st with sasl := { st.sasl with buffer := st.sasl.buffer ++ arg } }
      else st
    match base64Decode st.sasl.buffer with
    | none => ({ st with sasl := SaslState.reset },
        [.errSaslFail "Invalid base64 encoding"])
    | some data =>
      match splitNul data with
      | [authcid, authzid, password] =>
        if authzid ≠ [] ∧ authzid ≠ authcid then
          (st, [.errSaslFail "authzid and authcid should be the same"])
        else if !verify authcid password then
          (st, [.errSaslFail "invalid authentication"])
        else
          ({ st with
              sasl := SaslState.login authcid,
              flags := flagAdd st.flags .registered },
            [.rplLoggedIn authcid, .rplSaslSuccess, .rplModeChanges])
      | _ => (st, [.errSaslFail "invalid authentication blob"])

/-!
## Registration (`Server.tryRegister`, sasl.go:864 / server.go:211)
-/

/-- `CapState`. -/
inductive CapState where
  | capNone
  | capNegotiating
  | capNegotiated
deriving DecidableEq, Repr

/-- The client fields `tryRegister` reads and writes. -/
structure RegClient where
  registered : Bool
  nick : String
  username : String
  capState : CapState
deriving DecidableEq, Repr

/-- The welcome-sequence replies. -/
inductive RegEvent where
  | rplWelcome
  | rplYourHost
  | rplCreated
  | rplMyInfo
  | rplLUserClient
  | rplLUserOp
  | rplLUserUnknown
  | rplLUserChannels
  | rplLUserMe
  | errNoMOTD
  | rplMOTDStart
  | rplMOTD (line : String)
  | rplMOTDEnd
deriving DecidableEq, Repr

/-- `LUsersCommand.HandleServer`: the five LUSERS numerics in order. -/
def lusersEvents : List RegEvent :=
  [.rplLUserClient, .rplLUserOp, .rplLUserUnknown, .rplLUserChannels, .rplLUserMe]

/-- `Server.MOTD`: an unset or unopenable MOTD file (modelled as `none`)
yields ERR_NOMOTD; otherwise the start numeric, the readable lines, and
the end numeric.  (A final line without a newline is dropped by the Go
read loop; `lines` are the lines it actually replays.) -/
def serverMOTD (motd : Option (List String)) : List RegEvent :=
  match motd with
  | none => [.errNoMOTD]
  | some lines => [.rplMOTDStart] ++ lines.map RegEvent.rplMOTD ++ [.rplMOTDEnd]

/-- `Server.tryRegister`: the guard returns unless the client is
unregistered with a nick and a username and not amid capability
negotiation; then `Client.Register` flips the flag (its timer `Touch` is
outside this model) and the welcome sequence is sent. -/
def tryRegister (motd : Option (List String)) (c : RegClient) :
    RegClient × List RegEvent :=
  if c.registered || c.nick == "" || c.username == ""
      || c.capState == .capNegotiating then (c, [])
  else
    ({ c with registered := true },
      [.rplWelcome, .rplYourHost, .rplCreated, .rplMyInfo]
        ++ lusersEvents ++ serverMOTD motd)

/-!
## PASS and OPER failure paths (sasl.go:953, sasl.go:1279)
-/

/-- The client fields the PASS and OPER handlers touch. -/
structure AuthClient where
  authorized : Bool
  flags : List UserMode
deriving DecidableEq, Repr

/-- Replies of the PASS/OPER handlers. -/
inductive AuthEvent where
  | errPasswdMismatch
  | quit (reason : String)
  | rplYoureOper
  | rplModeChanges
deriving DecidableEq, Repr

/-- `PassCommand.HandleRegServer`: `err` is the outcome of the bcrypt
comparison run by `CheckPassword` (the command codec is outside the
sources; the handler only inspects `msg.err`). -/
def handlePassRegServer (st : AuthClient) (err : Bool) : AuthClient × List AuthEvent :=
  if err then (st, [.errPasswdMismatch, .quit "bad password"])
  else ({ st with authorized := true }, [])

/-- `OperCommand.HandleServer`: a missing operator hash or a failed
comparison replies ERR_PASSWDMISMATCH and returns; success grants `o`
and `w` and replies RPL_YOUREOPER plus the mode change. -/
def handleOperServer (st : AuthClient) (hashFound : Bool) (err : Bool) :
    AuthClient × List AuthEvent :=
  if !hashFound || err then (st, [.errPasswdMismatch])
  else
    ({ st with flags := flagAdd (flagAdd st.flags .operator) .wallOps },
      [.rplYoureOper, .rplModeChanges])

/-!
## User MODE (`ModeCommand.HandleServer`, modes module)
-/

/-- One requested user-mode change. -/
structure ModeChange where
  mode : UserMode
  op : ModeOp
deriving DecidableEq, Repr

/-- The state the user-MODE handler touches: the nick registry and every
client's flag set. -/
structure UModeState where
  nicks : List (String × ClientId)
  flags : List (ClientId × List UserMode)
deriving DecidableEq, Repr

/-- Replies of the user-MODE handler. -/
inductive UModeEvent where
  | errNoSuchNick (nick : String)
  | errUsersDontMatch
  | rplModeChanges (target : ClientId) (applied : List ModeChange)
  | rplUModeIs (c : ClientId)
deriving DecidableEq, Repr

/-- A client's flag set in a `UModeState`. -/
def UModeState.flagsOf (s : UModeState) (c : ClientId) : List UserMode :=
  (s.flags.lookup c).getD []

/-- Overwriting a client's flag set. -/
def UModeState.setFlags (s : UModeState) (c : ClientId) (l : List UserMode) :
    UModeState :=
  { s with flags := s.flags.map fun p => if p.1 = c then (p.1, l) else p }

/-- One iteration of the change loop of `ModeCommand.HandleServer`:
`i`, `w` and `Z` are settable and unsettable, `o` only unsettable, every
other letter falls through the switch unapplied. -/
def applyUserModeChange (fl : List UserMode) (change : ModeChange) :
    List UserMode × Bool :=
  match change.mode with
  | .invisible | .wallOps | .secureOnly =>
    (match change.op with
     | .add =>
       if fl.contains change.mode then (fl, false)
       else (fl ++ [change.mode], true)
     | .remove =>
       if !fl.contains change.mode then (fl, false)
       else (fl.filter fun x => x ≠ change.mode, true)
     | .listQuery => (fl, false))
  | .operator =>
    (match change.op with
     | .remove =>
       if !fl.contains change.mode then (fl, false)
       else (fl.filter fun x => x ≠ change.mode, true)
     | _ => (fl, false))
  | _ => (fl, false)

/-- `ModeCommand.HandleServer`: resolve the target nick; a sender who is
neither the target nor a server operator gets ERR_USERSDONTMATCH;
otherwise the changes are applied to the target's flags and either the
applied changes are echoed or, for an unchanged self-query, RPL_UMODEIS
is sent. -/
def handleUserMode (s : UModeState) (sender : ClientId) (nickname : String)
    (changes : List ModeChange) : UModeState × List UModeEvent :=
  match s.nicks.lookup nickname with
  | none => (s, [.errNoSuchNick nickname])
  | some target =>
    if target ≠ sender ∧ ¬(s.flagsOf sender).contains .operator then
      (s, [.errUsersDontMatch])
    else
      let r := changes.foldl
        (fun (acc : List UserMode × List ModeChange) change =>
          let (fl, ok) := applyUserModeChange acc.1 change
          (fl, acc.2 ++ if ok then [change] else []))
        (s.flagsOf target, [])
      let s' := s.setFlags target r.1
      if r.2 ≠ [] then (s', [.rplModeChanges target r.2])
      else if sender = target then (s', [.rplUModeIs sender])
      else (s', [])

/-!
## Claim-side auxiliary definitions
-/

/-- The four admission-failure replies of `Channel.Join`. -/
def isJoinError : ChanEvent → Bool
  | .errChannelIsFull _ => true
  | .errBadChannelKey _ => true
  | .errInviteOnlyChan _ => true
  | .errBannedFromChan _ => true
  | _ => false

/-- The claim's PRIVMSG behaviour in its own words: a failed speaking
check replies ERR_CANNOTSENDTOCHAN and delivers nothing, a passed one
delivers to every member except the sender. -/
def privMsgSpec (ch : ChanState) (c : ClientId) (ci : ClientState)
    (text : String) : List ChanEvent :=
  if Channel.canSpeakSpec ch c ci then
    (ch.members.filter fun p => p.1 ≠ c).map fun p =>
      ChanEvent.deliverPrivMsg p.1 c text
  else [.errCannotSendToChan c]

/-- The claim's NOTICE behaviour, same policy as PRIVMSG. -/
def noticeSpec (ch : ChanState) (c : ClientId) (ci : ClientState)
    (text : String) : List ChanEvent :=
  if Channel.canSpeakSpec ch c ci then
    (ch.members.filter fun p => p.1 ≠ c).map fun p =>
      ChanEvent.deliverNotice p.1 c text
  else [.errCannotSendToChan c]

/-- The mode word and arguments exactly as claim C8 words them: `+`,
then the flag letters, then `k` if a key is set, then `l` if a user
limit is set, with the positional arguments following in the order of
their letters. -/
def modeStringClaimed (ch : ChanState) (_c : ClientId) (_ci : ClientState) : String :=
  let showKey := ch.key != ""
  let showUserLimit := decide (0 < ch.userLimit)
  "+" ++ String.join (ch.flags.map ChannelMode.letter)
    ++ (if showKey then ChannelMode.key.letter else "")
    ++ (if showUserLimit then ChannelMode.userLimit.letter else "")
    ++ (if showKey then " " ++ ch.key else "")
    ++ (if showUserLimit then " " ++ toString ch.userLimit else "")

/-- The amended mode word of claim C8: the argument-letter block `[k][l]`
comes first, right after `+` and before the flag letters, with `k` shown
only when the key is set and the querier is a member or a server
operator; positional arguments still follow in the order of their
letters. -/
def modeStringAmended (ch : ChanState) (c : ClientId) (ci : ClientState) : String :=
  let showKey := (ci.hasMode .operator || ch.memberHas c) && ch.key != ""
  let showUserLimit := decide (0 < ch.userLimit)
  "+" ++ (if showKey then "k" else "") ++ (if showUserLimit then "l" else "")
    ++ String.join (ch.flags.map ChannelMode.letter)
    ++ (if showKey then " " ++ ch.key else "")
    ++ (if showUserLimit then " " ++ toString ch.userLimit else "")

/-- The client after the final AUTHENTICATE chunk has been buffered:
an argument other than the lone `+` is appended to the SASL buffer
before decoding. -/
def saslBuffered (st : SaslClient) (arg : String) : SaslClient :=
  if arg != "+" then
    { st with sasl := { st.sasl with buffer := st.sasl.buffer ++ arg } }
  else st

/-- The registry invariant of claim C5: every registered channel has at
least one member. -/
def ChannelsNonEmpty (s : ServerState) : Prop :=
  ∀ p ∈ s.channels, p.2.members ≠ []

/-- The empty server. -/
def ServerState.initial : ServerState :=
  { channels := [], nicks := [], clients := [], clientChans := [] }

/-!
## Theorems
-/

/-- C1: `Channel.Join` evaluates its admission checks exactly in the
claimed order with first failure winning — membership (silent), channel
full (471), bad key (475), invite-only (473), ban minus except/invite
(474) — a server operator or `@` holder bypassing checks 2-5, and every
failing admission leaves the member set (indeed the whole channel)
unchanged. -/
theorem C1_join_authorization (ch : ChanState) (c : ClientId)
    (ci : ClientState) (key : String) :
    Channel.join ch c ci key = Channel.joinSpec ch c ci key
      ∧ ((Channel.join ch c ci key).2.1.any isJoinError = true →
        (Channel.join ch c ci key).1 = ch) := by
  constructor
  · simp only [Channel.join, Channel.joinSpec, ChanState.clientIsOperator,
      ChanState.isFull, ChanState.checkKey]
    by_cases hm : ch.memberHas c = true
    · simp [hm]
    · simp only [Bool.not_eq_true] at hm
      simp only [hm, Bool.false_eq_true, if_false]
      by_cases hop : (ci.hasMode .operator || ch.memberHasMode c .channelOperator) = true
      · simp [hop]
      · simp only [Bool.not_eq_true] at hop
        simp only [hop, Bool.not_false, Bool.true_and, Bool.false_eq_true, if_false]
        by_cases h1 : 0 < ch.userLimit ∧ ch.userLimit ≤ ch.members.length
        · simp [h1, h1.1, h1.2]
        · rw [if_neg h1]
          have h1' : (decide (0 < ch.userLimit)
              && decide (ch.userLimit ≤ ch.members.length)) = false := by
            simp only [Bool.and_eq_false_iff, decide_eq_false_iff_not]
            tauto
          simp only [h1', Bool.false_eq_true, if_false]
          by_cases h2 : (ch.key == "" || ch.key == key) = true
          · have h2' : ¬(ch.key ≠ "" ∧ key ≠ ch.key) := by
              simp only [Bool.or_eq_true, beq_iff_eq] at h2
              rcases h2 with h | h
              · tauto
              · intro hc; exact hc.2 h.symm
            simp only [h2, Bool.not_true, Bool.false_eq_true, if_false, if_neg h2']
            by_cases h3 : ch.hasFlag .inviteOnly = true
            · by_cases h4 : maskSetMatch ch.inviteMasks ci.userhost = true
              · simp only [h3, h4, Bool.not_true, Bool.and_false,
                  Bool.false_eq_true, if_false]
                rw [if_neg (by simp [h4])]
                by_cases h5 : maskSetMatch ch.banMasks ci.userhost = true
                · simp [h4, h5]
                · simp [h4, h5]
              · simp only [Bool.not_eq_true] at h4
                simp [h3, h4]
            · simp only [Bool.not_eq_true] at h3
              simp only [h3, Bool.false_and, Bool.false_eq_true, if_false,
                false_and, if_neg (not_false : ¬False)]
              by_cases h5 : maskSetMatch ch.banMasks ci.userhost = true
              · by_cases h4 : maskSetMatch ch.inviteMasks ci.userhost = true
                · simp [h4, h5]
                · by_cases h6 : maskSetMatch ch.exceptMasks ci.userhost = true
                  · simp [h4, h5, h6]
                  · simp [h4, h5, h6]
              · simp [h5]
          · have h2' : ch.key ≠ "" ∧ key ≠ ch.key := by
              simp only [Bool.or_eq_true, beq_iff_eq, not_or] at h2
              push_neg at h2
              exact ⟨h2.1, fun hc => h2.2 hc.symm⟩
            simp [h2, h2']
  · unfold Channel.join
    split_ifs
    all_goals intro h
    all_goals try rfl
    all_goals revert h
    all_goals simp only [Channel.joinAccept, Channel.getTopic, Channel.names]
    all_goals split_ifs <;> simp [isJoinError]

/-- Witness for C1: a concrete full channel (limit 1, one member)
refuses a second, non-operator client with ERR_CHANNELISFULL and keeps
the channel unchanged. -/
theorem C1_join_authorization_witness :
    (Channel.join ⟨[], [], [], [], "", [(5, [])], "", 1⟩ 7 ⟨[], "n!u@h"⟩ "").2.1.any
        isJoinError = true
      ∧ (Channel.join ⟨[], [], [], [], "", [(5, [])], "", 1⟩ 7 ⟨[], "n!u@h"⟩ "").1
        = ⟨[], [], [], [], "", [(5, [])], "", 1⟩ :=
  ⟨by decide,
    (C1_join_authorization ⟨[], [], [], [], "", [(5, [])], "", 1⟩ 7
      ⟨[], "n!u@h"⟩ "").2 (by decide)⟩

/-- Skipping one key of an association list inside `filterMap` is
filtering it away and mapping the rest. -/
theorem filterMap_skip_eq_filter_map (l : List (ClientId × List ChannelMode))
    (c : ClientId) (f : ClientId → ChanEvent) :
    (l.filterMap fun p => if p.1 = c then none else some (f p.1))
      = (l.filter fun p => p.1 ≠ c).map fun p => f p.1 := by
  induction l with
  | nil => rfl
  | cons a l ih => by_cases h : a.1 = c <;> simp [h, ih]

/-- C2: `Channel.CanSpeak` holds exactly when the client is an operator
or none of the `n`/`m`/`Z` restrictions applies, and PRIVMSG and NOTICE
to the channel reply ERR_CANNOTSENDTOCHAN with no delivery on a failed
check, or deliver to every member except the sender on a passed one. -/
theorem C2_speaking_policy (ch : ChanState) (c : ClientId) (ci : ClientState)
    (text : String) :
    (Channel.canSpeak ch c ci = true ↔ Channel.canSpeakSpec ch c ci)
      ∧ Channel.privMsg ch c ci text = privMsgSpec ch c ci text
      ∧ Channel.notice ch c ci text = noticeSpec ch c ci text := by
  have hiff : Channel.canSpeak ch c ci = true ↔ Channel.canSpeakSpec ch c ci := by
    unfold Channel.canSpeak Channel.canSpeakSpec
    split_ifs <;> simp_all
  refine ⟨hiff, ?_, ?_⟩
  · unfold Channel.privMsg privMsgSpec
    by_cases hc : Channel.canSpeak ch c ci = true
    · rw [if_pos (hiff.mp hc)]
      simp only [hc, Bool.not_true, Bool.false_eq_true, if_false]
      exact filterMap_skip_eq_filter_map ch.members c
        (fun x => ChanEvent.deliverPrivMsg x c text)
    · rw [if_neg (fun hp => hc (hiff.mpr hp))]
      simp only [Bool.not_eq_true] at hc
      simp [hc]
  · unfold Channel.notice noticeSpec
    by_cases hc : Channel.canSpeak ch c ci = true
    · rw [if_pos (hiff.mp hc)]
      simp only [hc, Bool.not_true, Bool.false_eq_true, if_false]
      exact filterMap_skip_eq_filter_map ch.members c
        (fun x => ChanEvent.deliverNotice x c text)
    · rw [if_neg (fun hp => hc (hiff.mpr hp))]
      simp only [Bool.not_eq_true] at hc
      simp [hc]

/-- C6: with a single stored mask `UserMaskSet.Match` is exactly the
claimed anchored wildcard match, but the moment two masks are stored the
compiled expression matches every string — the loop never increments
`index`, leaving empty alternation branches, and the `^`/`$` anchors are
not grouped around each mask — so `Match` diverges from the claimed
per-mask matching: the set containing `a!b@c` and `d!e@f` matches the
unrelated `x!y@z`. -/
theorem C6_maskset_match :
    (∀ m u, maskSetMatch [m] u = globMatch m.data u.data)
      ∧ maskSetMatch ["a!b@c", "d!e@f"] "x!y@z" = true
      ∧ maskSetMatchSpec ["a!b@c", "d!e@f"] "x!y@z" = false := by
  refine ⟨fun m u => ?_, by decide, by decide⟩
  simp [maskSetMatch, setRegexpExprs, setRegexpBranches, branchMatch, List.enum]

/-- Counterexample to C8 as stated: on a channel with flag `n` and key
`sekret`, queried by a member, the code produces the mode word
`+kn sekret` and not the claimed `+nk sekret` — the `k`/`l` letters come
before the flag letters, not after them. -/
theorem C8_counterexample :
    Channel.modeString ⟨[.noOutside], [], [], [], "sekret", [(0, [])], "", 0⟩ 0
        ⟨[], "n!u@h"⟩
      ≠ modeStringClaimed ⟨[.noOutside], [], [], [], "sekret", [(0, [])], "", 0⟩ 0
        ⟨[], "n!u@h"⟩ := by
  decide

/-- C8 as amended: a MODE query with no changes replies
RPL_CHANNELMODEIS carrying the mode string, whose shape is
`+[k][l]<flags>` followed by the key and then the limit, `k` shown only
when a key is set and the querier is a member or server operator, `l`
when a limit is set. -/
theorem C8_mode_query_amended (lookup : String → Option ClientId)
    (ch : ChanState) (c : ClientId) (ci : ClientState) :
    Channel.mode lookup ch c ci []
        = (ch, [.rplChannelModeIs c (Channel.modeString ch c ci)])
      ∧ Channel.modeString ch c ci = modeStringAmended ch c ci := by
  constructor
  · simp [Channel.mode]
  · simp only [Channel.modeString, modeStringAmended, ChannelMode.letter]
    split_ifs <;> simp [String.append_assoc] <;> rfl

/-- C7: a PASS command whose password check failed replies
ERR_PASSWDMISMATCH and quits the client with reason `bad password`,
while an OPER command whose hash lookup or password check failed replies
ERR_PASSWDMISMATCH only, leaving the client connected with its flags (in
particular the operator flag) unchanged. -/
theorem C7_pass_oper_failure (st : AuthClient) :
    handlePassRegServer st true = (st, [.errPasswdMismatch, .quit "bad password"])
      ∧ (∀ hashFound err, (!hashFound || err) = true →
          handleOperServer st hashFound err = (st, [.errPasswdMismatch])) := by
  constructor
  · simp [handlePassRegServer]
  · intro hashFound err h
    simp [handleOperServer, h]

/-- Witness for C7: the concrete unauthorized client with empty flags,
OPER with a found hash but failed comparison. -/
theorem C7_pass_oper_failure_witness :
    handlePassRegServer ⟨false, []⟩ true
        = (⟨false, []⟩, [.errPasswdMismatch, .quit "bad password"])
      ∧ handleOperServer ⟨false, []⟩ true true = (⟨false, []⟩, [.errPasswdMismatch]) :=
  ⟨(C7_pass_oper_failure ⟨false, []⟩).1,
    (C7_pass_oper_failure ⟨false, []⟩).2 true true (by decide)⟩

/-- C4: `tryRegister` flips a client to registered exactly when it is
unregistered with a nick and a username and not amid capability
negotiation, and the newly registered client receives, in order,
RPL_WELCOME, RPL_YOURHOST, RPL_CREATED, RPL_MYINFO, the five LUSERS
numerics, and the MOTD block or ERR_NOMOTD; otherwise nothing changes
and nothing is sent. -/
theorem C4_tryRegister (motd : Option (List String)) (c : RegClient) :
    ((tryRegister motd c).1.registered = true ∧ c.registered = false
        ↔ c.registered = false ∧ c.nick ≠ "" ∧ c.username ≠ ""
          ∧ c.capState ≠ .capNegotiating)
      ∧ (c.registered = false ∧ c.nick ≠ "" ∧ c.username ≠ ""
            ∧ c.capState ≠ .capNegotiating →
          tryRegister motd c = ({ c with registered := true },
            [.rplWelcome, .rplYourHost, .rplCreated, .rplMyInfo,
              .rplLUserClient, .rplLUserOp, .rplLUserUnknown,
              .rplLUserChannels, .rplLUserMe] ++ serverMOTD motd))
      ∧ (¬(c.registered = false ∧ c.nick ≠ "" ∧ c.username ≠ ""
            ∧ c.capState ≠ .capNegotiating) →
          tryRegister motd c = (c, [])) := by
  unfold tryRegister
  by_cases h : (c.registered || c.nick == "" || c.username == ""
      || c.capState == CapState.capNegotiating) = true
  · rw [if_pos h]
    simp only [Bool.or_eq_true, beq_iff_eq] at h
    refine ⟨?_, ?_, fun _ => rfl⟩
    · constructor
      · rintro ⟨hr, hnr⟩
        exact absurd hr (by simp [hnr])
      · rintro ⟨hr, hn, hu, hc⟩
        simp [hr, hn, hu, hc] at h
    · rintro ⟨hr, hn, hu, hc⟩
      simp [hr, hn, hu, hc] at h
  · rw [if_neg h]
    simp only [Bool.or_eq_true, beq_iff_eq, not_or, Bool.not_eq_true] at h
    obtain ⟨⟨⟨hr, hn⟩, hu⟩, hc⟩ := h
    refine ⟨?_, fun _ => by simp [lusersEvents], fun habs => ?_⟩
    · simp [hr, hn, hu, hc]
    · exact absurd ⟨hr, hn, hu, hc⟩ habs

/-- Witness for C4: a concrete bare client with nick and username and
no negotiation registers and receives the welcome sequence ending in
ERR_NOMOTD. -/
theorem C4_tryRegister_witness :
    tryRegister none ⟨false, "alice", "alice", .capNone⟩
      = (⟨true, "alice", "alice", .capNone⟩,
        [.rplWelcome, .rplYourHost, .rplCreated, .rplMyInfo,
          .rplLUserClient, .rplLUserOp, .rplLUserUnknown,
          .rplLUserChannels, .rplLUserMe, .errNoMOTD]) :=
  (C4_tryRegister none ⟨false, "alice", "alice", .capNone⟩).2.1
    ⟨rfl, by decide, by decide, by decide⟩

/-- The applied-change accumulator of the user-MODE loop projects to a
plain fold of the flag updates. -/
theorem userModeFold_fst (changes : List ModeChange)
    (init : List UserMode × List ModeChange) :
    (changes.foldl
        (fun (acc : List UserMode × List ModeChange) change =>
          ((applyUserModeChange acc.1 change).1,
            acc.2 ++ if (applyUserModeChange acc.1 change).2 = true
              then [change] else []))
        init).1
      = changes.foldl (fun fl change => (applyUserModeChange fl change).1)
          init.1 := by
  induction changes generalizing init with
  | nil => rfl
  | cons a l ih => exact ih _

/-- C10: a user-MODE command on another client's nick is refused with
ERR_USERSDONTMATCH (state untouched) when the sender lacks user mode
`o`; a sender with `o` has the requested changes applied to the target
client, where `i`, `w` and `Z` can be set and unset and `o` only unset
(an `o` add leaves the flags alone). -/
theorem C10_user_mode_on_others (s : UModeState) (sender : ClientId)
    (nickname : String) (changes : List ModeChange) :
    (∀ target, s.nicks.lookup nickname = some target → target ≠ sender →
        (s.flagsOf sender).contains .operator = false →
        handleUserMode s sender nickname changes = (s, [.errUsersDontMatch]))
      ∧ (∀ target, s.nicks.lookup nickname = some target →
          (s.flagsOf sender).contains .operator = true →
          (handleUserMode s sender nickname changes).1
            = s.setFlags target (changes.foldl
                (fun fl change => (applyUserModeChange fl change).1)
                (s.flagsOf target)))
      ∧ (∀ fl m, (m = UserMode.invisible ∨ m = .wallOps ∨ m = .secureOnly) →
          (applyUserModeChange fl ⟨m, .add⟩).1.contains m = true
            ∧ (applyUserModeChange fl ⟨m, .remove⟩).1.contains m = false)
      ∧ (∀ fl, (applyUserModeChange fl ⟨.operator, .remove⟩).1.contains
            .operator = false
          ∧ (applyUserModeChange fl ⟨.operator, .add⟩).1 = fl) := by
  refine ⟨?_, ?_, ?_, ?_⟩
  · intro target hl hne hnop
    unfold handleUserMode
    simp only [hl]
    rw [if_pos ⟨hne, by simpa using hnop⟩]
  · intro target hl hop
    unfold handleUserMode
    simp only [hl]
    rw [if_neg (by intro hc; exact hc.2 (by simpa using hop))]
    have hf := userModeFold_fst changes (s.flagsOf target, [])
    split_ifs <;> simpa using congrArg (s.setFlags target) hf
  · rintro fl m (rfl | rfl | rfl) <;>
      constructor <;>
      simp [applyUserModeChange] <;>
      split_ifs <;>
      simp_all [List.elem_eq_mem, List.mem_filter]
  · intro fl
    constructor
    · simp [applyUserModeChange]
      split_ifs <;> simp_all [List.elem_eq_mem, List.mem_filter]
    · rfl

/-- Witness for C10: a concrete operator (client 1) sets `+i` on client
2, resolved through nick `bob`. -/
theorem C10_user_mode_on_others_witness :
    (handleUserMode ⟨[("bob", 2)], [(1, [.operator]), (2, [])]⟩ 1 "bob"
        [⟨.invisible, .add⟩]).1
      = UModeState.setFlags ⟨[("bob", 2)], [(1, [.operator]), (2, [])]⟩ 2
          ([ModeChange.mk .invisible .add].foldl
            (fun fl change => (applyUserModeChange fl change).1)
            (UModeState.flagsOf ⟨[("bob", 2)], [(1, [.operator]), (2, [])]⟩ 2)) :=
  (C10_user_mode_on_others ⟨[("bob", 2)], [(1, [.operator]), (2, [])]⟩ 1 "bob"
    [⟨.invisible, .add⟩]).2.1 2 (by decide) (by decide)

/-- Counterexample to C3 as stated: an authzid/authcid mismatch (base64
of `a NUL b NUL p`) replies ERR_SASLFAIL but does NOT reset the SASL
sub-state — the started flag stays set and the buffer keeps the chunk. -/
theorem C3_counterexample :
    handleAuthenticate (fun _ _ => true) ⟨true, [], ⟨true, "", "", []⟩⟩ "YQBiAHA="
      = (⟨true, [], ⟨true, "YQBiAHA=", "", []⟩⟩,
        [.errSaslFail "authzid and authcid should be the same"]) := by
  decide

/-- C3 as amended: within a started SASL PLAIN exchange, the terminal
AUTHENTICATE chunk never closes the connection; invalid base64 replies
ERR_SASLFAIL and resets the SASL sub-state; a malformed blob, an
authzid differing from authcid, or failed credentials reply ERR_SASLFAIL
and leave the SASL sub-state exactly as buffered (started, not reset);
success stores the identity, grants user mode `r` and replies
RPL_LOGGEDIN then RPL_SASLSUCCESS then the mode-change echo. -/
theorem C3_sasl_plain_amended (verify : List Nat → List Nat → Bool)
    (st : SaslClient) (arg : String) (h1 : st.authorized = true)
    (h2 : st.sasl.started = true) (h3 : arg ≠ "*") (h4 : arg.length < 400) :
    (∀ reason, SaslEvent.quit reason ∉ (handleAuthenticate verify st arg).2)
      ∧ (base64Decode (saslBuffered st arg).sasl.buffer = none →
          handleAuthenticate verify st arg
            = ({ st with sasl := SaslState.reset },
              [.errSaslFail "Invalid base64 encoding"]))
      ∧ (∀ data a z p, base64Decode (saslBuffered st arg).sasl.buffer = some data →
          splitNul data = [a, z, p] → z ≠ [] → z ≠ a →
          handleAuthenticate verify st arg
            = (saslBuffered st arg,
              [.errSaslFail "authzid and authcid should be the same"]))
      ∧ (∀ data a z p, base64Decode (saslBuffered st arg).sasl.buffer = some data →
          splitNul data = [a, z, p] → (z = [] ∨ z = a) → verify a p = false →
          handleAuthenticate verify st arg
            = (saslBuffered st arg, [.errSaslFail "invalid authentication"]))
      ∧ (∀ data, base64Decode (saslBuffered st arg).sasl.buffer = some data →
          (∀ a z p, splitNul data ≠ [a, z, p]) →
          handleAuthenticate verify st arg
            = (saslBuffered st arg, [.errSaslFail "invalid authentication blob"]))
      ∧ (∀ data a z p, base64Decode (saslBuffered st arg).sasl.buffer = some data →
          splitNul data = [a, z, p] → (z = [] ∨ z = a) → verify a p = true →
          handleAuthenticate verify st arg
            = ({ saslBuffered st arg with
                  sasl := SaslState.login a,
                  flags := flagAdd (saslBuffered st arg).flags .registered },
              [.rplLoggedIn a, .rplSaslSuccess, .rplModeChanges])) := by
  have h5 : ¬(400 < arg.length) := by omega
  have h6 : ¬(arg.length = 400) := by omega
  have h7 : (arg == "*") = false := by simpa using h3
  have hmain : handleAuthenticate verify st arg =
      (match base64Decode (saslBuffered st arg).sasl.buffer with
       | none => ({ saslBuffered st arg with sasl := SaslState.reset },
           [SaslEvent.errSaslFail "Invalid base64 encoding"])
       | some data =>
         match splitNul data with
         | [authcid, authzid, password] =>
           if authzid ≠ [] ∧ authzid ≠ authcid then
             (saslBuffered st arg,
               [.errSaslFail "authzid and authcid should be the same"])
           else if !verify authcid password then
             (saslBuffered st arg, [.errSaslFail "invalid authentication"])
           else
             ({ saslBuffered st arg with
                 sasl := SaslState.login authcid,
                 flags := flagAdd (saslBuffered st arg).flags .registered },
               [.rplLoggedIn authcid, .rplSaslSuccess, .rplModeChanges])
         | _ => (saslBuffered st arg,
             [.errSaslFail "invalid authentication blob"])) := by
    unfold handleAuthenticate saslBuffered
    simp only [h1, h2, h7, h5, h6, Bool.not_true, Bool.false_eq_true, if_false,
      Bool.not_false, if_true]
  have hrec : { saslBuffered st arg with sasl := SaslState.reset }
      = { st with sasl := SaslState.reset } := by
    unfold saslBuffered
    split_ifs <;> rfl
  refine ⟨?_, ?_, ?_, ?_, ?_, ?_⟩
  · intro reason
    rw [hmain]
    cases hd : base64Decode (saslBuffered st arg).sasl.buffer with
    | none => simp
    | some data =>
      rcases hsp : splitNul data with _ | ⟨a, _ | ⟨z, _ | ⟨p, _ | ⟨q, rest⟩⟩⟩⟩ <;>
        simp only [hsp] <;> first
          | (split_ifs <;> simp)
          | simp
  · intro hnone
    rw [hmain, hnone, hrec]
  · intro data a z p hd hsp hz1 hz2
    rw [hmain, hd]
    simp only [hsp]
    rw [if_pos ⟨hz1, hz2⟩]
  · intro data a z p hd hsp hz hv
    rw [hmain, hd]
    simp only [hsp]
    rw [if_neg (by tauto), if_pos (by simp [hv])]
  · intro data hd hne
    rw [hmain, hd]
    rcases hsp : splitNul data with _ | ⟨a, _ | ⟨z, _ | ⟨p, _ | ⟨q, rest⟩⟩⟩⟩ <;>
      simp only [hsp] <;> first
        | rfl
        | exact absurd hsp (hne a z p)
  · intro data a z p hd hsp hz hv
    rw [hmain, hd]
    simp only [hsp]
    rw [if_neg (by tauto)]
    simp [hv]

/-- Witness for C3: the concrete successful exchange with identity `a`
and password `p` (base64 of `a NUL a NUL p`). -/
theorem C3_sasl_plain_amended_witness :
    handleAuthenticate (fun a p => a == [97] && p == [112])
        ⟨true, [], ⟨true, "", "", []⟩⟩ "YQBhAHA="
      = ({ saslBuffered ⟨true, [], ⟨true, "", "", []⟩⟩ "YQBhAHA=" with
            sasl := SaslState.login [97],
            flags := flagAdd (saslBuffered ⟨true, [], ⟨true, "", "", []⟩⟩
              "YQBhAHA=").flags .registered },
        [.rplLoggedIn [97], .rplSaslSuccess, .rplModeChanges]) :=
  (C3_sasl_plain_amended (fun a p => a == [97] && p == [112])
      ⟨true, [], ⟨true, "", "", []⟩⟩ "YQBhAHA=" rfl rfl (by decide)
      (by decide)).2.2.2.2.2 [97, 0, 97, 0, 112] [97] [97] [112]
    (by decide) (by decide) (Or.inr rfl) (by decide)

theorem lookup_mem {α : Type} :
    ∀ {l : List (String × α)} {k : String} {v : α},
      l.lookup k = some v → (k, v) ∈ l := by
  intro l
  induction l with
  | nil => intro k v h; simp [List.lookup] at h
  | cons a l ih =>
    intro k v h
    cases a with
    | mk k' v' =>
      simp only [List.lookup] at h
      cases he : k == k' with
      | false => rw [he] at h; exact List.mem_cons_of_mem _ (ih h)
      | true =>
        rw [he] at h
        cases h
        have hk : k = k' := by simpa using he
        subst hk
        exact List.mem_cons_self _ _

theorem lookup_none_ne {α : Type} :
    ∀ {l : List (String × α)} {k : String},
      l.lookup k = none → ∀ p ∈ l, p.1 ≠ k := by
  intro l
  induction l with
  | nil => intro k _ p hp; simp at hp
  | cons a l ih =>
    intro k h p hp
    cases a with
    | mk k' v' =>
      simp only [List.lookup] at h
      cases he : k == k' with
      | true => rw [he] at h; cases h
      | false =>
        rw [he] at h
        rcases List.mem_cons.mp hp with rfl | hp'
        · exact fun hc => absurd hc.symm (by simpa using he)
        · exact ih h p hp'

theorem joinAccept_members_ne (ch : ChanState) (c : ClientId) (ci : ClientState) :
    (Channel.joinAccept ch c ci).1.members ≠ [] := by
  simp only [Channel.joinAccept, ChanState.memberAdd, ChanState.memberSetMode]
  split_ifs <;> intro h <;> apply congrArg List.length at h <;> simp at h

theorem join_state_cases (ch : ChanState) (c : ClientId) (ci : ClientState)
    (key : String) :
    (Channel.join ch c ci key).1 = ch ∨ (Channel.join ch c ci key).1.members ≠ [] := by
  simp only [Channel.join]
  split_ifs <;> first
    | exact Or.inl rfl
    | exact Or.inr (joinAccept_members_ne ch c ci)

theorem join_fresh (c : ClientId) (ci : ClientState) (key : String) :
    Channel.join ServerState.freshChan c ci key
      = Channel.joinAccept ServerState.freshChan c ci := by
  unfold Channel.join ServerState.freshChan
  simp [ChanState.memberHas, ChanState.isFull, ChanState.checkKey,
    ChanState.hasFlag, maskSetMatch, DefaultChannelModes]

theorem applyModeFlag_members (ch : ChanState) (c : ClientId) (ci : ClientState)
    (mode : ChannelMode) (op : ModeOp) :
    (Channel.applyModeFlag ch c ci mode op).1.members = ch.members := by
  unfold Channel.applyModeFlag ChanState.flagSet ChanState.flagUnset
  split_ifs <;> try rfl
  all_goals cases op <;> dsimp only <;> (try split_ifs) <;> rfl

theorem applyModeMask_members (ch : ChanState) (c : ClientId) (ci : ClientState)
    (mode : ChannelMode) (op : ModeOp) (mask : String) :
    (Channel.applyModeMask ch c ci mode op mask).1.members = ch.members := by
  unfold Channel.applyModeMask Channel.listSet
  split_ifs <;> try rfl
  all_goals cases op <;> dsimp only <;> (try split_ifs) <;> (try cases mode) <;> rfl

theorem applyModeMember_members_length (lookup : String → Option ClientId)
    (ch : ChanState) (c : ClientId) (ci : ClientState) (mode : ChannelMode)
    (op : ModeOp) (nick : String) :
    (Channel.applyModeMember lookup ch c ci mode op nick).1.members.length
      = ch.members.length := by
  unfold Channel.applyModeMember ChanState.memberSetMode ChanState.memberUnsetMode
  split_ifs <;> try rfl
  all_goals cases lookup nick <;> dsimp only <;> (try split_ifs) <;> (try rfl)
  all_goals cases op <;> dsimp only <;> (try split_ifs) <;> first
    | rfl
    | simp

theorem applyMode_members_length (lookup : String → Option ClientId)
    (ch : ChanState) (c : ClientId) (ci : ClientState)
    (change : ChannelModeChange) :
    (Channel.applyMode lookup ch c ci change).1.members.length
      = ch.members.length := by
  unfold Channel.applyMode
  cases hm : change.mode <;>
    dsimp only <;>
    (try simp only [applyModeFlag_members, applyModeMask_members,
      applyModeMember_members_length]) <;>
    (try rfl) <;>
    (try split_ifs <;> try rfl) <;>
    (try cases change.op <;> dsimp only <;> (try split_ifs) <;> rfl) <;>
    (try cases change.arg.toNat? <;> dsimp only <;> (try split_ifs) <;> rfl)

theorem modeFold_members_length (lookup : String → Option ClientId)
    (c : ClientId) (ci : ClientState) (changes : List ChannelModeChange) :
    ∀ (acc : ChanState × List ChanEvent × Nat),
      ((changes.foldl
        (fun (acc : ChanState × List ChanEvent × Nat) change =>
          let (ch', evs, ok) := Channel.applyMode lookup acc.1 c ci change
          (ch', acc.2.1 ++ evs, acc.2.2 + (if ok then 1 else 0)))
        acc).1).members.length = acc.1.members.length := by
  induction changes with
  | nil => intro acc; rfl
  | cons a l ih =>
    intro acc
    rw [List.foldl_cons, ih]
    exact applyMode_members_length lookup acc.1 c ci a

theorem mode_members_length (lookup : String → Option ClientId)
    (ch : ChanState) (c : ClientId) (ci : ClientState)
    (changes : List ChannelModeChange) :
    (Channel.mode lookup ch c ci changes).1.members.length
      = ch.members.length := by
  unfold Channel.mode
  split_ifs with h
  · rfl
  · dsimp only
    split_ifs <;>
      exact modeFold_members_length lookup c ci changes (ch, [], 0)

theorem setTopic_members (ch : ChanState) (c : ClientId) (ci : ClientState)
    (topic : String) :
    (Channel.setTopic ch c ci topic).1.members = ch.members := by
  unfold Channel.setTopic
  split_ifs <;> rfl

theorem invite_members (ch : ChanState) (inviter : ClientId)
    (ii : ClientState) (invitee : ClientId) (ei : ClientState) :
    (Channel.invite ch inviter ii invitee ei).1.members = ch.members := by
  unfold Channel.invite
  split_ifs <;> rfl

theorem clientChansAdd_channels (s : ServerState) (c : ClientId) (name : String) :
    (s.clientChansAdd c name).channels = s.channels := by
  unfold ServerState.clientChansAdd
  split_ifs <;> rfl

theorem inv_chanUpdate (s : ServerState) (name : String) (ch : ChanState)
    (hs : ∀ q ∈ s.channels, q.1 ≠ name → q.2.members ≠ [])
    (hch : ch.members ≠ []) :
    ChannelsNonEmpty (s.chanUpdate name ch) := by
  intro p hp
  unfold ServerState.chanUpdate at hp
  rcases List.mem_map.mp hp with ⟨q, hq, rfl⟩
  try dsimp only
  split_ifs with h
  · exact hch
  · exact hs q hq h

theorem inv_chanRemove (s : ServerState) (name : String)
    (hs : ChannelsNonEmpty s) :
    ChannelsNonEmpty (s.chanRemove name) := by
  intro p hp
  exact hs p (List.mem_of_mem_filter hp)

theorem inv_channelQuit (s : ServerState) (name : String) (c : ClientId)
    (hs : ChannelsNonEmpty s) :
    ChannelsNonEmpty (s.channelQuit name c) := by
  unfold ServerState.channelQuit
  cases hg : s.getChan name with
  | none => exact hs
  | some ch =>
    try dsimp only
    split_ifs with h
    · exact inv_chanRemove s name hs
    · refine inv_chanUpdate s name _ (fun q hq _ => hs q hq) ?_
      intro hnil
      unfold ChanState.isEmpty at h
      rw [hnil] at h
      simp at h

theorem inv_joinOne (s : ServerState) (c : ClientId) (p : String × String)
    (hs : ChannelsNonEmpty s) :
    ChannelsNonEmpty (ServerState.joinOne s c p).1 := by
  unfold ServerState.joinOne
  try dsimp only
  split_ifs with hn
  · exact hs
  · cases hg : s.getChan p.1 with
    | some ch =>
      unfold ServerState.joinInto
      try dsimp only
      have hchne : (Channel.join ch c (s.clientInfo c) p.2).1.members ≠ [] := by
        rcases join_state_cases ch c (s.clientInfo c) p.2 with he | hne
        · rw [he]; exact hs (p.1, ch) (lookup_mem hg)
        · exact hne
      have hupd : ChannelsNonEmpty
          (s.chanUpdate p.1 (Channel.join ch c (s.clientInfo c) p.2).1) :=
        inv_chanUpdate s p.1 _ (fun q hq _ => hs q hq) hchne
      split_ifs with hok
      · intro q hq
        rw [clientChansAdd_channels] at hq
        exact hupd q hq
      · exact hupd
    | none =>
      unfold ServerState.joinInto
      try dsimp only
      have hchne : (Channel.join ServerState.freshChan c (s.clientInfo c) p.2).1.members
          ≠ [] := by
        rw [join_fresh]
        exact joinAccept_members_ne ServerState.freshChan c (s.clientInfo c)
      have hupd : ChannelsNonEmpty
          ((s.newChannel p.1).chanUpdate p.1
            (Channel.join ServerState.freshChan c (s.clientInfo c) p.2).1) := by
        refine inv_chanUpdate _ p.1 _ ?_ hchne
        intro q hq hqne
        unfold ServerState.newChannel at hq
        dsimp only at hq
        rcases List.mem_append.mp hq with hq' | hq'
        · exact hs q hq'
        · rcases List.mem_singleton.mp hq' with rfl
          exact absurd rfl hqne
      split_ifs with hok
      · intro q hq
        rw [clientChansAdd_channels] at hq
        exact hupd q hq
      · exact hupd

theorem inv_partOne (s : ServerState) (c : ClientId) (name : String)
    (hs : ChannelsNonEmpty s) :
    ChannelsNonEmpty (ServerState.partOne s c name).1 := by
  unfold ServerState.partOne
  cases hg : s.getChan name with
  | none => exact hs
  | some ch =>
    try dsimp only
    split_ifs with h
    · exact hs
    · exact inv_channelQuit s name c hs

theorem inv_foldPartOne (c : ClientId) (names : List String) :
    ∀ (acc : ServerState × List ChanEvent), ChannelsNonEmpty acc.1 →
      ChannelsNonEmpty ((names.foldl
        (fun acc n => let r := ServerState.partOne acc.1 c n; (r.1, acc.2 ++ r.2))
        acc).1) := by
  induction names with
  | nil => intro acc h; exact h
  | cons a l ih =>
    intro acc h
    rw [List.foldl_cons]
    exact ih _ (inv_partOne acc.1 c a h)

theorem inv_foldJoinOne (c : ClientId) (pairs : List (String × String)) :
    ∀ (acc : ServerState × List ChanEvent), ChannelsNonEmpty acc.1 →
      ChannelsNonEmpty ((pairs.foldl
        (fun acc p => let r := ServerState.joinOne acc.1 c p; (r.1, acc.2 ++ r.2))
        acc).1) := by
  induction pairs with
  | nil => intro acc h; exact h
  | cons a l ih =>
    intro acc h
    rw [List.foldl_cons]
    exact ih _ (inv_joinOne acc.1 c a h)

theorem inv_destroyClient (s : ServerState) (c : ClientId)
    (hs : ChannelsNonEmpty s) :
    ChannelsNonEmpty (s.destroyClient c) := by
  unfold ServerState.destroyClient
  try dsimp only
  intro p hp
  revert p
  generalize s.clientChansOf c = names
  induction names generalizing s with
  | nil => exact hs
  | cons a l ih =>
    rw [List.foldl_cons]
    exact ih _ (inv_channelQuit s a c hs)

/-- C5: the empty server satisfies the registry invariant and every
membership-touching command handler preserves it — every channel present
in the registry after a completed handler has at least one member; a
channel is created by the first JOIN (which always admits its creator)
and `Channel.Quit` removes an emptied channel from the registry on PART,
KICK and client destruction. -/
theorem C5_registry_channels_nonempty :
    ChannelsNonEmpty ServerState.initial
      ∧ ∀ (s : ServerState) (cmd : Cmd), ChannelsNonEmpty s →
          ChannelsNonEmpty (ServerState.step s cmd).1 := by
  constructor
  · intro p hp
    simp [ServerState.initial] at hp
  · intro s cmd hs
    cases cmd with
    | joinCmd c zero pairs =>
      simp only [ServerState.step]
      split_ifs
      · exact inv_foldPartOne c (s.clientChansOf c) (s, []) hs
      · exact inv_foldJoinOne c pairs (s, []) hs
    | partCmd c names =>
      simp only [ServerState.step]
      exact inv_foldPartOne c names (s, []) hs
    | kickCmd c chname nick =>
      cases hg : s.getChan chname with
      | none => simp only [ServerState.step, hg]; exact hs
      | some ch =>
        cases hn : s.nicks.lookup nick with
        | none => simp only [ServerState.step, hg, hn]; exact hs
        | some target =>
          simp only [ServerState.step, hg, hn]
          split_ifs with h
          · exact inv_channelQuit s chname target hs
          · exact hs
    | quitCmd c =>
      simp only [ServerState.step]
      exact inv_destroyClient s c hs
    | killCmd c nick =>
      simp only [ServerState.step]
      split_ifs with h
      · exact hs
      · cases hn : s.nicks.lookup nick with
        | none => simp only [hn]; exact hs
        | some target => simp only [hn]; exact inv_destroyClient s target hs
    | modeCmd c chname changes =>
      cases hg : s.getChan chname with
      | none => simp only [ServerState.step, hg]; exact hs
      | some ch =>
        simp only [ServerState.step, hg]
        refine inv_chanUpdate s chname _ (fun q hq _ => hs q hq) ?_
        have hne : ch.members ≠ [] := hs (chname, ch) (lookup_mem hg)
        have hlen := mode_members_length (fun n => s.nicks.lookup n) ch c
          (s.clientInfo c) changes
        intro hnil
        rw [hnil] at hlen
        exact hne (List.length_eq_zero.mp hlen.symm)
    | privMsgCmd c target text =>
      simp only [ServerState.step]
      split_ifs
      · cases hg : s.getChan target with
        | none => simp only [hg]; exact hs
        | some ch => simp only [hg]; exact hs
      · exact hs
    | noticeCmd c target text =>
      simp only [ServerState.step]
      split_ifs
      · cases hg : s.getChan target with
        | none => simp only [hg]; exact hs
        | some ch => simp only [hg]; exact hs
      · exact hs
    | topicCmd c chname setIt topic =>
      cases hg : s.getChan chname with
      | none => simp only [ServerState.step, hg]; exact hs
      | some ch =>
        simp only [ServerState.step, hg]
        split_ifs with h
        · refine inv_chanUpdate s chname _ (fun q hq _ => hs q hq) ?_
          rw [setTopic_members]
          exact hs (chname, ch) (lookup_mem hg)
        · exact hs
    | inviteCmd c nick chname =>
      cases hn : s.nicks.lookup nick with
      | none => simp only [ServerState.step, hn]; exact hs
      | some target =>
        cases hg : s.getChan chname with
        | none => simp only [ServerState.step, hn, hg]; exact hs
        | some ch =>
          simp only [ServerState.step, hn, hg]
          refine inv_chanUpdate s chname _ (fun q hq _ => hs q hq) ?_
          rw [invite_members]
          exact hs (chname, ch) (lookup_mem hg)

/-- Witness for C5: stepping the empty server with a JOIN that creates
`#x` yields a registry whose only channel holds its creator. -/
theorem C5_registry_channels_nonempty_witness :
    ChannelsNonEmpty (ServerState.step ServerState.initial
      (Cmd.joinCmd 1 false [("#x", "")])).1 :=
  C5_registry_channels_nonempty.2 ServerState.initial
    (Cmd.joinCmd 1 false [("#x", "")])
    C5_registry_channels_nonempty.1

theorem mod_two_cases (x n : Nat) (hn : 0 < n) (h : x < 2 * n) :
    x % n = if x < n then x else x - n := by
  split_ifs with h1
  · exact Nat.mod_eq_of_lt h1
  · rw [Nat.mod_eq_sub_mod (le_of_not_lt h1), Nat.mod_eq_of_lt (by omega)]

theorem eachLoop_stop (buf : List (Option WhoWas)) (t : Nat) (fuel : Nat) :
    WhoWasList.eachLoop buf t t fuel = [] := by
  cases fuel with
  | zero => rfl
  | succ f => simp [WhoWasList.eachLoop]

theorem eachLoop_char (buf : List (Option WhoWas)) (t : Nat)
    (ht : t < buf.length) :
    ∀ d cur fuel, cur < buf.length →
      d = (buf.length + cur - t) % buf.length → d ≤ fuel →
      WhoWasList.eachLoop buf t cur fuel
        = (List.range d).map fun j =>
            buf.getD ((buf.length + cur - j) % buf.length) none := by
  intro d
  induction d with
  | zero =>
    intro cur fuel hcur hd _
    have hn : 0 < buf.length := by omega
    rw [mod_two_cases _ _ hn (by omega)] at hd
    have hct : cur = t := by
      split_ifs at hd <;> omega
    rw [hct, eachLoop_stop]
    rfl
  | succ d ih =>
    intro cur fuel hcur hd hfuel
    have hn : 0 < buf.length := by omega
    rw [mod_two_cases _ _ hn (by omega)] at hd
    have hct : cur ≠ t := by
      intro hcontra
      subst hcontra
      split_ifs at hd <;> omega
    obtain ⟨f, rfl⟩ : ∃ f, fuel = f + 1 := ⟨fuel - 1, by omega⟩
    rw [WhoWasList.eachLoop, if_neg hct]
    have hps : WhoWasList.prev buf.length cur
        = if cur = 0 then buf.length - 1 else cur - 1 := rfl
    have hprev : WhoWasList.prev buf.length cur < buf.length := by
      rw [hps]; split_ifs <;> omega
    have hd' : d = (buf.length + WhoWasList.prev buf.length cur - t)
        % buf.length := by
      rw [mod_two_cases _ _ hn (by rw [hps]; split_ifs <;> omega)]
      rw [hps]
      split_ifs at hd ⊢ <;> omega
    rw [ih (WhoWasList.prev buf.length cur) f hprev hd' (by omega)]
    rw [List.range_succ_eq_map]
    rw [List.map_cons, List.map_map]
    congr 1
    · congr 1
      rw [mod_two_cases _ _ hn (by omega)]
      split_ifs <;> omega
    · apply List.map_congr_left
      intro j hj
      simp only [List.mem_range] at hj
      simp only [Function.comp]
      congr 1
      rw [mod_two_cases _ _ hn (by rw [hps]; split_ifs <;> omega),
        mod_two_cases _ _ hn (by omega)]
      rw [hps]
      split_ifs at hd ⊢ <;> omega

theorem each_char (l : WhoWasList) (hn : 0 < l.buffer.length)
    (hs : l.start < l.buffer.length) (he : l.endIdx < l.buffer.length) :
    l.each = (List.range
        ((l.buffer.length + l.endIdx - l.start) % l.buffer.length)).map
      fun j => l.buffer.getD
        ((l.buffer.length + l.endIdx - 1 - j) % l.buffer.length) none := by
  unfold WhoWasList.each
  split_ifs with hse
  · rw [hse]
    have h0 : (l.buffer.length + l.endIdx - l.endIdx) % l.buffer.length = 0 := by
      have hx : l.buffer.length + l.endIdx - l.endIdx = l.buffer.length := by omega
      rw [hx, Nat.mod_self]
    rw [h0]
    rfl
  · have hps : WhoWasList.prev l.buffer.length l.start
        = if l.start = 0 then l.buffer.length - 1 else l.start - 1 := rfl
    have hpe : WhoWasList.prev l.buffer.length l.endIdx
        = if l.endIdx = 0 then l.buffer.length - 1 else l.endIdx - 1 := rfl
    have hpsl : WhoWasList.prev l.buffer.length l.start < l.buffer.length := by
      rw [hps]; split_ifs <;> omega
    have hpel : WhoWasList.prev l.buffer.length l.endIdx < l.buffer.length := by
      rw [hpe]; split_ifs <;> omega
    have hd : (l.buffer.length + WhoWasList.prev l.buffer.length l.endIdx
          - WhoWasList.prev l.buffer.length l.start) % l.buffer.length
        = (l.buffer.length + l.endIdx - l.start) % l.buffer.length := by
      rw [mod_two_cases _ _ hn (by rw [hpe, hps]; split_ifs <;> omega),
        mod_two_cases _ _ hn (by omega), hpe, hps]
      split_ifs <;> omega
    rw [eachLoop_char l.buffer (WhoWasList.prev l.buffer.length l.start) hpsl
      ((l.buffer.length + l.endIdx - l.start) % l.buffer.length)
      (WhoWasList.prev l.buffer.length l.endIdx) l.buffer.length hpel hd.symm
      (le_of_lt (Nat.mod_lt _ hn))]
    apply List.map_congr_left
    intro j hj
    simp only [List.mem_range] at hj
    have hjlt : j < l.buffer.length :=
      lt_of_lt_of_le hj (le_of_lt (Nat.mod_lt _ hn))
    congr 1
    rw [mod_two_cases _ _ hn (by rw [hpe]; split_ifs <;> omega),
      mod_two_cases _ _ hn (by omega), hpe]
    split_ifs <;> omega

theorem append_components (l : WhoWasList) (w : WhoWas) :
    (l.append w).buffer = l.buffer.set l.endIdx (some w)
      ∧ (l.append w).endIdx = (l.endIdx + 1) % l.buffer.length
      ∧ (l.append w).start
        = (if (l.endIdx + 1) % l.buffer.length = l.start then
            ((l.endIdx + 1) % l.buffer.length + 1) % l.buffer.length
          else l.start) := by
  unfold WhoWasList.append
  dsimp only
  split_ifs with h <;> exact ⟨rfl, rfl, rfl⟩

theorem each_append (l : WhoWasList) (w : WhoWas)
    (h2 : 2 ≤ l.buffer.length) (hs : l.start < l.buffer.length)
    (he : l.endIdx < l.buffer.length) :
    (l.append w).each = some w :: l.each.take (l.buffer.length - 2) := by
  have hn : 0 < l.buffer.length := by omega
  obtain ⟨hbuf, hE, hS⟩ := append_components l w
  have hblen : (l.append w).buffer.length = l.buffer.length := by
    rw [hbuf, List.length_set]
  have hE1 : (l.endIdx + 1) % l.buffer.length
      = if l.endIdx + 1 = l.buffer.length then 0 else l.endIdx + 1 := by
    rw [mod_two_cases _ _ hn (by omega)]
    split_ifs <;> omega
  have hE' : (l.append w).endIdx < l.buffer.length := by
    rw [hE, hE1]; split_ifs <;> omega
  have hS' : (l.append w).start < l.buffer.length := by
    rw [hS]
    split_ifs with h
    · exact Nat.mod_lt _ hn
    · exact hs
  -- the two iteration counts
  have hDlt : (l.buffer.length + l.endIdx - l.start) % l.buffer.length
      < l.buffer.length := Nat.mod_lt _ hn
  -- rewrite both sides into range-map form
  rw [each_char (l.append w) (by omega) (by rw [hblen]; exact hS')
      (by rw [hblen]; exact hE'),
    each_char l hn hs he]
  rw [← List.map_take, List.take_range]
  -- D' = min (n-2) D + 1
  have hD' : (((l.append w).buffer.length + (l.append w).endIdx
        - (l.append w).start) % (l.append w).buffer.length)
      = min (l.buffer.length - 2)
          ((l.buffer.length + l.endIdx - l.start) % l.buffer.length) + 1 := by
    rw [hblen, hE, hS]
    by_cases hen : l.endIdx + 1 = l.buffer.length
    · have hv : (l.endIdx + 1) % l.buffer.length = 0 := by
        rw [hE1, if_pos hen]
      rw [hv]
      by_cases hw0 : (0 : Nat) = l.start
      · rw [if_pos hw0]
        rw [Nat.mod_eq_of_lt (show 0 + 1 < l.buffer.length by omega)]
        rw [mod_two_cases _ _ hn (by omega),
          mod_two_cases _ _ hn (by omega)]
        split_ifs <;> omega
      · rw [if_neg hw0]
        rw [mod_two_cases _ _ hn (by omega),
          mod_two_cases _ _ hn (by omega)]
        split_ifs <;> omega
    · have hv : (l.endIdx + 1) % l.buffer.length = l.endIdx + 1 := by
        rw [hE1, if_neg hen]
      rw [hv]
      by_cases hw1 : l.endIdx + 1 = l.start
      · rw [if_pos hw1]
        rw [mod_two_cases (l.endIdx + 1 + 1) _ hn (by omega)]
        rw [mod_two_cases _ _ hn (by split_ifs <;> omega),
          mod_two_cases _ _ hn (by omega)]
        split_ifs <;> omega
      · rw [if_neg hw1]
        rw [mod_two_cases _ _ hn (by omega),
          mod_two_cases _ _ hn (by omega)]
        split_ifs <;> omega
  rw [hD']
  rw [List.range_succ_eq_map, List.map_cons, List.map_map]
  congr 1
  · -- head entry is the appended snapshot
    rw [hblen, hbuf, hE]
    have hidx : (l.buffer.length + (l.endIdx + 1) % l.buffer.length - 1 - 0)
        % l.buffer.length = l.endIdx := by
      rw [hE1]
      rw [mod_two_cases _ _ hn (by split_ifs <;> omega)]
      split_ifs <;> omega
    rw [hidx]
    rw [List.getD_eq_getElem?_getD, List.getElem?_set_eq_of_lt _ he,
      Option.getD_some]
  · -- tail entries coincide with the old iteration
    apply List.map_congr_left
    intro j hj
    simp only [List.mem_range] at hj
    have hjb : j < l.buffer.length - 1 := by omega
    simp only [Function.comp]
    rw [hblen, hbuf, hE]
    have hidx : (l.buffer.length + (l.endIdx + 1) % l.buffer.length - 1
          - (j + 1)) % l.buffer.length
        = (l.buffer.length + l.endIdx - 1 - j) % l.buffer.length := by
      rw [hE1]
      rw [mod_two_cases _ _ hn (by split_ifs <;> omega),
        mod_two_cases _ _ hn (by omega)]
      split_ifs <;> omega
    rw [hidx]
    have hne : (l.buffer.length + l.endIdx - 1 - j) % l.buffer.length
        ≠ l.endIdx := by
      rw [mod_two_cases _ _ hn (by omega)]
      split_ifs <;> omega
    rw [List.getD_eq_getElem?_getD, List.getElem?_set_ne (fun hc => hne hc.symm),
      ← List.getD_eq_getElem?_getD]

theorem eachLoop_length_le (buf : List (Option WhoWas)) (t : Nat) :
    ∀ fuel cur, (WhoWasList.eachLoop buf t cur fuel).length ≤ fuel := by
  intro fuel
  induction fuel with
  | zero => intro cur; exact Nat.le_refl 0
  | succ f ih =>
    intro cur
    rw [WhoWasList.eachLoop]
    split_ifs
    · simp
    · simpa using Nat.succ_le_succ (ih (WhoWasList.prev buf.length cur))

theorem each_length_le (l : WhoWasList) :
    l.each.length ≤ l.buffer.length := by
  unfold WhoWasList.each
  split_ifs
  · simp
  · exact eachLoop_length_le l.buffer _ _ _

theorem budget_stop (limit : Int) (k : Nat) (h : limit ≤ (k : Int) + 1) :
    (max limit ((k : Int) + 1)).toNat - k = 1 := by
  omega

theorem budget_go (limit : Int) (k : Nat) (h : ¬limit ≤ (k : Int) + 1) :
    (max limit ((k : Int) + 1)).toNat - k
      = ((max limit ((k : Int) + 1 + 1)).toNat - (k + 1)) + 1 := by
  omega

theorem findLoop_char (nick : String) (limit : Int) :
    ∀ (xs : List (Option WhoWas)) (acc : List WhoWas),
      WhoWasList.findLoop nick limit xs acc
        = acc ++ ((xs.filterMap id).filter
            (fun ww => ww.nickname == nick)).take
            ((max limit ((acc.length : Int) + 1)).toNat - acc.length) := by
  intro xs
  induction xs with
  | nil => intro acc; simp [WhoWasList.findLoop]
  | cons x rest ih =>
    intro acc
    cases x with
    | none =>
      rw [WhoWasList.findLoop]
      rw [ih acc]
      simp
    | some ww =>
      by_cases hm : ww.nickname = nick
      · rw [WhoWasList.findLoop, if_neg (by simp [hm])]
        have hfil : ((some ww :: rest).filterMap id).filter
              (fun x => x.nickname == nick)
            = ww :: (rest.filterMap id).filter (fun x => x.nickname == nick) := by
          simp [hm]
        rw [hfil]
        have hlen1 : (((acc ++ [ww]).length : Nat) : Int)
            = (acc.length : Int) + 1 := by
          simp
        by_cases hl : limit ≤ (((acc ++ [ww]).length : Nat) : Int)
        · rw [if_pos hl]
          rw [hlen1] at hl
          rw [budget_stop limit acc.length hl]
          simp
        · rw [if_neg hl]
          rw [ih (acc ++ [ww])]
          rw [hlen1] at hl
          rw [budget_go limit acc.length hl]
          rw [List.take_succ_cons]
          simp only [List.length_append, List.length_singleton,
            Nat.cast_add, Nat.cast_one, List.append_assoc, List.singleton_append]
      · rw [WhoWasList.findLoop, if_pos (by simp [hm])]
        rw [ih acc]
        have hfil : ((some ww :: rest).filterMap id).filter
              (fun x => x.nickname == nick)
            = (rest.filterMap id).filter (fun x => x.nickname == nick) := by
          simp [hm]
        rw [hfil]

theorem find_char (l : WhoWasList) (nick : String) (limit : Int) :
    l.find nick limit
      = ((l.each.filterMap id).filter (fun ww => ww.nickname == nick)).take
          (if limit ≤ 0 then 1 else limit.toNat) := by
  unfold WhoWasList.find
  rw [findLoop_char nick limit l.each []]
  simp only [List.length_nil, List.nil_append, Nat.cast_zero, zero_add]
  congr 1
  split_ifs <;> omega

/-- Counterexample to C9 as stated: a nickname change on a connected
client records a who-was snapshot — recording is not confined to client
destruction (the client's identity is still registered afterwards). -/
theorem C9_counterexample :
    (LifeState.changeNickname
        ⟨[(1, ⟨"alice", "u", "h", "r"⟩)], [("alice", 1)], NewWhoWasList 100⟩
        1 "bob").whoWas.each
        = [some ⟨"alice", "u", "h", "r"⟩]
      ∧ ((LifeState.changeNickname
          ⟨[(1, ⟨"alice", "u", "h", "r"⟩)], [("alice", 1)], NewWhoWasList 100⟩
          1 "bob").idents.lookup 1).isSome = true := by
  constructor
  · rfl
  · rfl

/-- C9 as amended: a who-was snapshot is recorded at client quit and
also at every nickname change (the changing client stays connected);
the list is a ring buffer of the configured size (default 100) whose
`Each` yields at most `size` entries; appending places the new snapshot
first and keeps at most `size - 2` older entries (newest first,
overwriting the oldest); and `Find` filters that newest-first iteration
by nickname, returning at most `limit` entries when `limit ≥ 1` and at
most one entry when `limit ≤ 0`. -/
theorem C9_whowas_amended :
    (∀ (s : LifeState) (c : ClientId) (nick : String) ident,
        s.idents.lookup c = some ident →
        (s.changeNickname c nick).whoWas = s.whoWas.append (snapshotOf ident)
          ∧ (s.changeNickname c nick).idents.length = s.idents.length)
      ∧ (∀ (s : LifeState) (c : ClientId) ident,
          s.idents.lookup c = some ident →
          (s.clientQuit c).whoWas = s.whoWas.append (snapshotOf ident))
      ∧ (∀ size : Nat, (NewWhoWasList size).buffer.length = size)
      ∧ (∀ (l : WhoWasList) (w : WhoWas),
          (l.append w).buffer.length = l.buffer.length)
      ∧ (∀ l : WhoWasList, l.each.length ≤ l.buffer.length)
      ∧ (∀ (l : WhoWasList) (w : WhoWas), 2 ≤ l.buffer.length →
          l.start < l.buffer.length → l.endIdx < l.buffer.length →
          (l.append w).each = some w :: l.each.take (l.buffer.length - 2))
      ∧ (∀ (l : WhoWasList) (nick : String) (limit : Int),
          l.find nick limit
            = ((l.each.filterMap id).filter
                (fun ww => ww.nickname == nick)).take
                (if limit ≤ 0 then 1 else limit.toNat)) := by
  refine ⟨?_, ?_, ?_, ?_, each_length_le, each_append, find_char⟩
  · intro s c nick ident h
    unfold LifeState.changeNickname
    rw [h]
    exact ⟨rfl, by simp⟩
  · intro s c ident h
    unfold LifeState.clientQuit
    rw [h]
  · intro size
    simp [NewWhoWasList]
  · intro l w
    obtain ⟨hbuf, _, _⟩ := append_components l w
    rw [hbuf, List.length_set]

/-- Witness for C9: appending to a fresh size-3 ring puts the snapshot
at the head of the iteration. -/
theorem C9_whowas_amended_witness :
    ((NewWhoWasList 3).append ⟨"a", "u", "h", "r"⟩).each
      = some ⟨"a", "u", "h", "r"⟩
        :: (NewWhoWasList 3).each.take ((NewWhoWasList 3).buffer.length - 2) :=
  C9_whowas_amended.2.2.2.2.2.1 (NewWhoWasList 3) ⟨"a", "u", "h", "r"⟩
    (by decide) (by decide) (by decide)

end Eris
